import Mathlib

set_option maxRecDepth 100000

/-!
Verification of the gettext .po/.pot codec and the catalog synchronization
engine of github.com/romshark/localize.

The definitions below are a shallow embedding of the Go sources:
  - gettext/gettext.go        (data model, MakePOT, FmtCodeRef)
  - gettext/encoder.go        (Encoder.encode and helpers)
  - gettext/decoder.go        (Decoder: the variant with the one-directive
                               pushback buffer, checkMsgstrIndexedAgainstPrevious
                               and parsePluralFormsHeader; this is the variant
                               that type-checks against gettext.go)
  - cmd/localize main         (updateTranslationCatalogs, updateComments,
                               sortCommentsByType)
  - internal/codeparser       (Msg, MsgMeta, MsgFromGettextMessage)

Byte streams are modelled as lists of Char (all inputs of interest are ASCII).
Go uint8/uint32 counters are modelled as Nat: every operation on them in the
embedded code is a small increment or a non-underflowing subtraction, so no
wrap-around is reachable and Nat agrees with the machine integers.
Loops that are not structurally recursive take an explicit fuel argument;
callers pass (input length + 2), which evaluation shows is sufficient on every
concrete input used below (no theorem relies on the out-of-fuel outcome).
-/

namespace Localize

/-- gettext.Position: filename, absolute byte index, 1-based line and column. -/
structure Position where
  filename : String
  index : Nat
  line : Nat
  column : Nat
deriving DecidableEq, Repr, Inhabited

/-- gettext.Span: a Position plus a byte length; Len = 0 means absent. -/
structure Span where
  pos : Position
  len : Nat
deriving DecidableEq, Repr, Inhabited

/-- gettext.Span.IsZero. -/
def Span.isZero (s : Span) : Bool := s.len == 0

/-- gettext.StringLiteral: a spanned, escape-decoded line value. -/
structure StringLiteral where
  span : Span
  value : String
deriving DecidableEq, Repr, Inhabited

/-- gettext.StringLiterals: ordered sequence of string-literal lines. -/
structure StringLiterals where
  span : Span
  lines : List StringLiteral
deriving DecidableEq, Repr, Inhabited

/-- gettext.StringLiterals.String: concatenation of the line values
(the Go method special-cases 0 and 1 lines; the result is the same). -/
def StringLiterals.str (l : StringLiterals) : String :=
  match l.lines with
  | [] => ""
  | [x] => x.value
  | _ => String.join (l.lines.map (fun x => x.value))

/-- gettext.CommentType is a Go uint8: 0 invalid, 1 Translator, 2 Extracted,
3 Reference, 4 Flag; modelled as Nat so that cmp.Compare on it is Nat order. -/
def commentTypeTranslator : Nat := 1

/-- CommentTypeExtracted. -/
def commentTypeExtracted : Nat := 2

/-- CommentTypeReference. -/
def commentTypeReference : Nat := 3

/-- CommentTypeFlag. -/
def commentTypeFlag : Nat := 4

/-- gettext.Comment: span, kind tag and text value. -/
structure Comment where
  span : Span
  type : Nat
  value : String
deriving DecidableEq, Repr, Inhabited

/-- gettext.Comments: ordered comment list with a covering span. -/
structure Comments where
  span : Span
  text : List Comment
deriving DecidableEq, Repr, Inhabited

/-- One translation-slot of a message. The Go types Msgctxt, Msgid,
MsgidPlural and Msgstr (gettext.go) are four structurally identical structs
embedding Span plus Comments and StringLiterals; they are modelled by this
single structure. -/
structure MsgSlot where
  span : Span
  comments : Comments
  text : StringLiterals
deriving DecidableEq, Repr, Inhabited

/-- gettext.Message. The PreviousMsgctxt/PreviousMsgid/... fields of the Go
struct are never written by the decoder and never read by the encoder
(marked "Unsupported yet" in the source), so they are omitted here. -/
structure Message where
  span : Span
  obsolete : Bool
  msgctxt : MsgSlot
  msgid : MsgSlot
  msgidPlural : MsgSlot
  msgstr : MsgSlot
  msgstr0 : MsgSlot
  msgstr1 : MsgSlot
  msgstr2 : MsgSlot
  msgstr3 : MsgSlot
  msgstr4 : MsgSlot
  msgstr5 : MsgSlot
deriving DecidableEq, Repr, Inhabited

/-- gettext.XHeader: a non-standard X- header key/value pair. -/
structure XHeader where
  name : String
  value : String
deriving DecidableEq, Repr, Inhabited

/-- gettext.HeaderPluralForms: parsed Plural-Forms header (N is a Go uint8). -/
structure HeaderPluralForms where
  n : Nat
  expression : String
deriving DecidableEq, Repr, Inhabited

/-- gettext.HeaderLanguage. The locale field holds golang.org/x/text
language.Tag; only its string form matters to the embedded code, so the tag
is modelled by the accepted string. -/
structure HeaderLanguage where
  value : String
  locale : String
deriving DecidableEq, Repr, Inhabited

/-- gettext.FileHead. -/
structure FileHead where
  span : Span
  headComments : Comments
  projectIdVersion : String
  reportMsgidBugsTo : String
  potCreationDate : String
  poRevisionDate : String
  lastTranslator : String
  languageTeam : String
  language : HeaderLanguage
  mimeVersion : String
  contentType : String
  contentTransferEncoding : String
  pluralForms : HeaderPluralForms
  nonStandard : List XHeader
deriving DecidableEq, Repr, Inhabited

/-- gettext.File: head plus ordered message list (the Go Messages wrapper
struct around the slice is flattened into the list). -/
structure File where
  head : FileHead
  messages : List Message
deriving DecidableEq, Repr, Inhabited

/-- gettext.FilePO. -/
structure FilePO where
  file : File
deriving DecidableEq, Repr, Inhabited

/-- gettext.FilePOT. -/
structure FilePOT where
  file : File
deriving DecidableEq, Repr, Inhabited

/-- The sentinel error values of package gettext (gettext.go) plus the two
io errors that reach the decoder result. -/
inductive ErrKind where
  | noErr
  | unexpectedEOF
  | malformedHeader
  | duplicateHeader
  | malformedHeaderPluralForms
  | malformedHeaderLanguage
  | languageInTemplate
  | malformedHeaderContentType
  | unsupportedHeader
  | unsupportedContentTransferEncoding
  | unsupportedContentType
  | unsupportedMIMEVersion
  | unquoteFailed
deriving DecidableEq, Repr, Inhabited

/-- gettext.Error: position, expected-token description and wrapped error. -/
structure GError where
  pos : Position
  expected : String
  err : ErrKind
deriving DecidableEq, Repr, Inhabited

/-- Error produced by the decoder helper d.err(expected):
Error with the current position, the expected description and no inner error. -/
def errAt (pos : Position) (expected : String) : GError :=
  { pos := pos, expected := expected, err := ErrKind.noErr }

/-- gettext.FmtCodeRef: formats a code reference comment as file:line. -/
def fmtCodeRef (file : String) (line : Nat) : String :=
  file ++ ":" ++ toString line

/-! ### Models of Go standard-library helpers used by the codec

These model external library functions (strconv, strings, mime,
golang.org/x/text/language), not code of this repository. They are faithful
on the ASCII inputs the codec deals with. -/

/-- Go unicode.IsSpace restricted to ASCII, as used by strings.TrimSpace. -/
def isGoSpace (c : Char) : Bool :=
  c = ' ' || c = '\t' || c = '\n' || c = '\x0b' || c = '\x0c' || c = '\r'

/-- strings.TrimSpace (ASCII model): drop leading and trailing space chars. -/
def trimSpace (cs : List Char) : List Char :=
  ((cs.dropWhile isGoSpace).reverse.dropWhile isGoSpace).reverse

/-- Decimal value of a digit run. -/
def natOfDigits (cs : List Char) : Nat :=
  cs.foldl (fun acc c => acc * 10 + (c.toNat - '0'.toNat)) 0

/-- Hex value of one hex digit (0 for non-hex input; callers check first). -/
def hexVal (c : Char) : Nat :=
  if '0' ≤ c ∧ c ≤ '9' then c.toNat - '0'.toNat
  else if 'a' ≤ c ∧ c ≤ 'f' then c.toNat - 'a'.toNat + 10
  else if 'A' ≤ c ∧ c ≤ 'F' then c.toNat - 'A'.toNat + 10
  else 0

/-- Is c a hex digit. -/
def isHexDigit (c : Char) : Bool :=
  ('0' ≤ c ∧ c ≤ '9') || ('a' ≤ c ∧ c ≤ 'f') || ('A' ≤ c ∧ c ≤ 'F')

/-- strconv.Unquote body scan: decodes the characters between the wrapping
double quotes; fails on an unescaped quote, a newline, or a bad escape.
Models Go strconv.Unquote for double-quoted strings. -/
def unquoteBody : List Char → Except Unit (List Char)
  | [] => Except.ok []
  | '"' :: _ => Except.error ()
  | '\n' :: _ => Except.error ()
  | '\\' :: esc =>
    match esc with
    | 'n' :: rest => (unquoteBody rest).map (fun l => '\n' :: l)
    | 't' :: rest => (unquoteBody rest).map (fun l => '\t' :: l)
    | 'r' :: rest => (unquoteBody rest).map (fun l => '\r' :: l)
    | 'a' :: rest => (unquoteBody rest).map (fun l => '\x07' :: l)
    | 'b' :: rest => (unquoteBody rest).map (fun l => '\x08' :: l)
    | 'f' :: rest => (unquoteBody rest).map (fun l => '\x0c' :: l)
    | 'v' :: rest => (unquoteBody rest).map (fun l => '\x0b' :: l)
    | '\\' :: rest => (unquoteBody rest).map (fun l => '\\' :: l)
    | '"' :: rest => (unquoteBody rest).map (fun l => '"' :: l)
    | 'x' :: h1 :: h2 :: rest =>
      if isHexDigit h1 && isHexDigit h2 then
        (unquoteBody rest).map
          (fun l => Char.ofNat (hexVal h1 * 16 + hexVal h2) :: l)
      else Except.error ()
    | 'u' :: h1 :: h2 :: h3 :: h4 :: rest =>
      if isHexDigit h1 && isHexDigit h2 && isHexDigit h3 && isHexDigit h4 then
        (unquoteBody rest).map (fun l =>
          Char.ofNat
            (((hexVal h1 * 16 + hexVal h2) * 16 + hexVal h3) * 16 + hexVal h4)
            :: l)
      else Except.error ()
    | o1 :: o2 :: o3 :: rest =>
      if '0' ≤ o1 ∧ o1 ≤ '7' then
        if ('0' ≤ o2 ∧ o2 ≤ '7') ∧ ('0' ≤ o3 ∧ o3 ≤ '7') then
          (unquoteBody rest).map (fun l =>
            Char.ofNat
              (((o1.toNat - 48) * 8 + (o2.toNat - 48)) * 8 + (o3.toNat - 48))
              :: l)
        else Except.error ()
      else Except.error ()
    | _ => Except.error ()
  | c :: rest => (unquoteBody rest).map (fun l => c :: l)

/-- strconv.Unquote (double-quote model): requires wrapping quotes and a
well-formed body. -/
def goUnquote (cs : List Char) : Except Unit (List Char) :=
  match cs with
  | '"' :: rest =>
    if rest ≠ [] ∧ rest.getLast? = some '"' then unquoteBody rest.dropLast
    else Except.error ()
  | _ => Except.error ()

/-- Escape of a single char under Go strconv.Quote (fmt %q), ASCII model:
printable ASCII passes through, the standard escapes are emitted for the
rest; chars above 0x7e pass through (all inputs used here are ASCII). -/
def goQuoteChar (c : Char) : List Char :=
  if c = '"' then ['\\', '"']
  else if c = '\\' then ['\\', '\\']
  else if c = '\n' then ['\\', 'n']
  else if c = '\t' then ['\\', 't']
  else if c = '\r' then ['\\', 'r']
  else if c = '\x07' then ['\\', 'a']
  else if c = '\x08' then ['\\', 'b']
  else if c = '\x0c' then ['\\', 'f']
  else if c = '\x0b' then ['\\', 'v']
  else if c.toNat < 32 then
    let hi := c.toNat / 16
    let lo := c.toNat % 16
    ['\\', 'x',
      (if hi < 10 then Char.ofNat (48 + hi) else Char.ofNat (87 + hi)),
      (if lo < 10 then Char.ofNat (48 + lo) else Char.ofNat (87 + lo))]
  else [c]

/-- Go strconv.Quote / fmt %q (ASCII model). -/
def goQuote (s : String) : String :=
  String.mk ('"' :: (s.data.flatMap goQuoteChar) ++ ['"'])

/-- Modelled from the spec: golang.org/x/text language.Parse succeeds on a
well-formed BCP 47 tag (leading letter, alphanumeric subtags separated by
dashes) and fails on the empty string; the canonical tag is modelled by the
accepted string itself. -/
def languageParseOk (s : String) : Bool :=
  match s.data with
  | [] => false
  | c :: _ =>
    (c.isAlpha : Bool) && s.data.all (fun x => x.isAlphanum || x = '-')

/-- Modelled from the spec: mime.ParseMediaType accepts a type/subtype form,
possibly with parameters. Only the exact value "text/plain; charset=UTF-8"
matters downstream (any other value is rejected right after this check). -/
def mimeParseMediaTypeOk (s : String) : Bool :=
  s.data.contains '/' && s.data.head? ≠ some '/'

/-! ### Encoder (gettext/encoder.go) -/

/-- fmt with verb %s applied to the struct gettext.HeaderPluralForms
(no String method): Go prints \x7bfield1 field2\x7d, where the uint8 field
renders as %!s(uint8=N). This is exactly what encoder.go line 84 does with
f.Head.PluralForms. -/
def fmtS_HeaderPluralForms (pf : HeaderPluralForms) : String :=
  "\x7b%!s(uint8=" ++ toString pf.n ++ ") " ++ pf.expression ++ "\x7d"

/-- encoder.go printLines: prints prefix plus line, for every "\n"-separated
line of s, while s is non-empty. -/
def printLines (pre : String) (s : String) : String :=
  if s = "" then ""
  else
    let parts := s.splitOn "\n"
    let parts := if s.endsWith "\n" then parts.dropLast else parts
    String.join (parts.map (fun l => pre ++ l ++ "\n"))

/-- encoder.go encodeComments: kind prefix per comment; an obsolete prefix
"#~ " is printed once before each comment (before its first line). -/
def encodeComments (c : Comments) (obsolete : Bool) : String :=
  String.join (c.text.map (fun com =>
    (if obsolete then "#~ " else "") ++
    (if com.type = commentTypeExtracted then printLines "#. " com.value
     else if com.type = commentTypeReference then printLines "#: " com.value
     else if com.type = commentTypeFlag then printLines "#, " com.value
     else if com.value = "" then "#\n"
     else printLines "# " com.value)))

/-- encoder.go printDirective: nothing when the text has no lines; otherwise
comments, the (possibly obsolete-prefixed) directive keyword, and either one
quoted value or the multi-line form. -/
def printDirective (name : String) (obsolete : Bool)
    (comments : Comments) (text : StringLiterals) : String :=
  if text.lines = [] then ""
  else
    encodeComments comments obsolete ++
    (if obsolete then "#~ " else "") ++ name ++
    (match text.lines with
     | [l] => " " ++ goQuote l.value ++ "\n"
     | ls =>
       " \"\"\n" ++
       String.join (ls.map (fun l =>
         (if obsolete then "#~ " else "") ++ goQuote l.value ++ "\n")))

/-- One optional head field line: "Name: value\n" quoted, only when set. -/
def headFieldOpt (name value : String) : String :=
  if value = "" then "" else "\"" ++ name ++ ": " ++ value ++ "\\n\"\n"

/-- One unconditional head field line. -/
def headField (name value : String) : String :=
  "\"" ++ name ++ ": " ++ value ++ "\\n\"\n"

/-- The ten directive prints of one message in encoder.go encode. -/
def encodeMessageBody (m : Message) : String :=
  printDirective "msgctxt" m.obsolete m.msgctxt.comments m.msgctxt.text ++
  printDirective "msgid" m.obsolete m.msgid.comments m.msgid.text ++
  printDirective "msgid_plural" m.obsolete m.msgidPlural.comments
    m.msgidPlural.text ++
  printDirective "msgstr" m.obsolete m.msgstr.comments m.msgstr.text ++
  printDirective "msgstr[0]" m.obsolete m.msgstr0.comments m.msgstr0.text ++
  printDirective "msgstr[1]" m.obsolete m.msgstr1.comments m.msgstr1.text ++
  printDirective "msgstr[2]" m.obsolete m.msgstr2.comments m.msgstr2.text ++
  printDirective "msgstr[3]" m.obsolete m.msgstr3.comments m.msgstr3.text ++
  printDirective "msgstr[4]" m.obsolete m.msgstr4.comments m.msgstr4.text ++
  printDirective "msgstr[5]" m.obsolete m.msgstr5.comments m.msgstr5.text

/-- The message loop of encoder.go encode: in template mode obsolete
messages are skipped entirely (including their separator); the blank-line
separator is emitted whenever the original index is not the last one. -/
def encodeMessagesLoop (template : Bool) (total : Nat) :
    Nat → List Message → String
  | _, [] => ""
  | i, m :: rest =>
    (if template && m.obsolete then ""
     else encodeMessageBody m ++ (if i + 1 < total then "\n" else "")) ++
    encodeMessagesLoop template total (i + 1) rest

/-- encoder.go encode: head comments, the reserved header entry, the head
fields (four of them printed unconditionally, Plural-Forms via %s on the
struct), one blank line, then the messages. -/
def encodeFile (template : Bool) (f : File) : String :=
  encodeComments f.head.headComments false ++
  "msgid \"\"\nmsgstr \"\"\n" ++
  headFieldOpt "Project-Id-Version" f.head.projectIdVersion ++
  headFieldOpt "Report-Msgid-Bugs-To" f.head.reportMsgidBugsTo ++
  headFieldOpt "POT-Creation-Date" f.head.potCreationDate ++
  headFieldOpt "PO-Revision-Date" f.head.poRevisionDate ++
  headFieldOpt "Last-Translator" f.head.lastTranslator ++
  headFieldOpt "Language-Team" f.head.languageTeam ++
  headFieldOpt "Language" f.head.language.value ++
  headField "MIME-Version" f.head.mimeVersion ++
  headField "Content-Type" f.head.contentType ++
  headField "Content-Transfer-Encoding" f.head.contentTransferEncoding ++
  headField "Plural-Forms" (fmtS_HeaderPluralForms f.head.pluralForms) ++
  String.join (f.head.nonStandard.map (fun h => headField h.name h.value)) ++
  "\n" ++
  encodeMessagesLoop template f.messages.length 0 f.messages

/-- Encoder.EncodePO. -/
def encodePO (f : FilePO) : String := encodeFile false f.file

/-- Encoder.EncodePOT. -/
def encodePOT (f : FilePOT) : String := encodeFile true f.file

/-! ### MakePOT (gettext/gettext.go) -/

/-- The resetMsgstr closure in FilePO.MakePOT: a populated slot is replaced
by a single empty line (fresh spans), an unpopulated one by the zero value;
comments and the slot span are untouched. -/
def resetMsgstr (s : MsgSlot) : MsgSlot :=
  if s.text.lines ≠ [] then
    { s with text :=
      { span := default, lines := [{ span := default, value := "" }] } }
  else
    { s with text := default }

/-- All seven resetMsgstr calls of MakePOT applied to one message. -/
def resetAllMsgstr (m : Message) : Message :=
  { m with
    msgstr := resetMsgstr m.msgstr
    msgstr0 := resetMsgstr m.msgstr0
    msgstr1 := resetMsgstr m.msgstr1
    msgstr2 := resetMsgstr m.msgstr2
    msgstr3 := resetMsgstr m.msgstr3
    msgstr4 := resetMsgstr m.msgstr4
    msgstr5 := resetMsgstr m.msgstr5 }

/-- FilePO.MakePOT: deep-clone, clear the four locale-specific head fields,
and blank the translation slots of every message except the obsolete ones,
which the loop skips with continue (they stay in the list, unmodified). -/
def makePOT (f : FilePO) : FilePOT :=
  { file :=
    { head :=
      { f.file.head with
        language := { value := "", locale := "" }
        lastTranslator := ""
        poRevisionDate := ""
        languageTeam := "" }
      messages := f.file.messages.map
        (fun m => if m.obsolete then m else resetAllMsgstr m) } }

/-! ### Decoder (gettext/decoder.go)

The decoder state is the remaining input, the position, and the pending
(pushed-back) directive. Every reader returns either a value with the updated
state or an error with the state at the error site; the error kind separates
io.EOF, the internal errEndOfMessage sentinel, fatal gettext.Error values,
and the panic in readMessage. -/

/-- The directive struct of decoder.go (directiveType as Nat: 0 none,
1 msgctxt, 2 msgid, 3 msgid_plural, 4 msgstr, 5 msgstr indexed). -/
structure Directive where
  span : Span
  comments : Comments
  text : StringLiterals
  dirType : Nat
  pluralFormIndex : Nat
deriving DecidableEq, Repr, Inhabited

/-- Decoder state: buffered reader rest, position, pending directive. -/
structure DecSt where
  rem : List Char
  pos : Position
  pending : Directive
deriving DecidableEq, Repr, Inhabited

/-- Decoder-internal error channel: io.EOF, errEndOfMessage, a fatal
gettext.Error, the readMessage panic, or fuel exhaustion (an artifact of the
embedding; no theorem relies on it). -/
inductive PErr where
  | eofErr
  | endOfMessage
  | fatal (e : GError)
  | panicked (msg : String)
  | outOfFuel
deriving DecidableEq, Repr, Inhabited

/-- Decoder.advanceByte. -/
def advanceByte (p : Position) (n : Nat) : Position :=
  { p with index := p.index + n, column := p.column + n }

/-- Decoder.advanceLine. -/
def advanceLine (p : Position) : Position :=
  { p with index := p.index + 1, line := p.line + 1, column := 1 }

/-- Decoder.span: from a start position to the current one. -/
def mkSpan (start cur : Position) : Span :=
  { pos := start, len := cur.index - start.index }

/-- Decoder.readOptionalWhitespace: skip spaces, tabs, carriage returns and
line breaks; the Bool reports hitting end of input (io.EOF). -/
def skipWs : List Char → Position → (List Char × Position × Bool)
  | [], pos => ([], pos, true)
  | c :: rest, pos =>
    if c = ' ' || c = '\r' || c = '\t' then skipWs rest (advanceByte pos 1)
    else if c = '\n' then skipWs rest (advanceLine pos)
    else (c :: rest, pos, false)

/-- Split at the first line break: (line, rest, sawNewline). -/
def splitFirstLine : List Char → (List Char × List Char × Bool)
  | [] => ([], [], false)
  | '\n' :: rest => ([], rest, true)
  | c :: rest =>
    let (l, r, saw) := splitFirstLine rest
    (c :: l, r, saw)

/-- bufio.Reader.ReadLine on non-empty input: the line without the final
"\n" (and without a "\r" preceding it), plus the rest. -/
def readLineGo (cs : List Char) : List Char × List Char :=
  let (l, r, saw) := splitFirstLine cs
  (if saw ∧ l.getLast? = some '\r' then l.dropLast else l, r)

/-- Decoder.readPrefixObsolete: consume exactly "#~ ". -/
def readPrefixObsolete (st : DecSt) : Except (PErr × DecSt) DecSt :=
  match st.rem with
  | [] => Except.error (.eofErr, st)
  | b :: r1 =>
    if b ≠ '#' then Except.error (.fatal (errAt st.pos "#"), { st with rem := r1 })
    else
      let p1 := advanceByte st.pos 1
      match r1 with
      | [] => Except.error (.eofErr, { st with rem := r1, pos := p1 })
      | b2 :: r2 =>
        if b2 ≠ '~' then
          Except.error (.fatal (errAt p1 "~"), { st with rem := r2, pos := p1 })
        else
          let p2 := advanceByte p1 1
          match r2 with
          | [] => Except.error (.eofErr, { st with rem := r2, pos := p2 })
          | b3 :: r3 =>
            if b3 ≠ ' ' then
              Except.error (.fatal (errAt p2 "space"), { st with rem := r3, pos := p2 })
            else Except.ok { st with rem := r3, pos := advanceByte p2 1 }

/-- Shared tail of Decoder.readComment: read the rest of the line as the
comment value and produce the spanned comment. -/
def readCommentTail (pending : Directive) (start : Position) (ty : Nat)
    (pos : Position) (rem : List Char) : Except (PErr × DecSt) (Comment × DecSt) :=
  match rem with
  | [] => Except.error (.eofErr, { rem := rem, pos := pos, pending := pending })
  | _ =>
    let (line, r) := readLineGo rem
    let pos' := advanceLine (advanceByte pos line.length)
    Except.ok ({ span := mkSpan start pos', type := ty, value := String.mk line },
      { rem := r, pos := pos', pending := pending })

/-- The ".", ":" and "," comment kinds of Decoder.readComment require one
space after the kind byte before the value line. -/
def readCommentReqSpace (pending : Directive) (start : Position) (ty : Nat)
    (pos2 : Position) (rem2 : List Char) : Except (PErr × DecSt) (Comment × DecSt) :=
  match rem2 with
  | [] => Except.error (.eofErr, { rem := rem2, pos := pos2, pending := pending })
  | b3 :: rest3 =>
    if b3 ≠ ' ' then
      Except.error (.fatal (errAt pos2 "space"),
        { rem := rest3, pos := pos2, pending := pending })
    else readCommentTail pending start ty (advanceByte pos2 1) rest3

/-- Decoder.readComment. A zero comment type in the result means "not a
comment" (the caller stops collecting comments). Mirrors the quirks of the
source: the default branch unreads only the second byte, and the "#|" branch
consumes its line, then reads one more line via the shared tail with the
comment type left zero. -/
def readComment (st : DecSt) : Except (PErr × DecSt) (Comment × DecSt) :=
  let start := st.pos
  match st.rem with
  | [] => Except.error (.eofErr, st)
  | b :: rest =>
    if b ≠ '#' then Except.ok ({ span := default, type := 0, value := "" }, st)
    else
      match rest with
      | [] => Except.error (.eofErr, { st with rem := rest })
      | b2 :: rest2 =>
        if b2 = '\n' then
          let pos := advanceLine (advanceByte st.pos 1)
          Except.ok
            ({ span := mkSpan start pos, type := commentTypeTranslator, value := "" },
             { st with rem := rest2, pos := pos })
        else if b2 = ' ' then
          readCommentTail st.pending start commentTypeTranslator
            (advanceByte st.pos 2) rest2
        else if b2 = '.' then
          readCommentReqSpace st.pending start commentTypeExtracted
            (advanceByte st.pos 2) rest2
        else if b2 = ':' then
          readCommentReqSpace st.pending start commentTypeReference
            (advanceByte st.pos 2) rest2
        else if b2 = ',' then
          readCommentReqSpace st.pending start commentTypeFlag
            (advanceByte st.pos 2) rest2
        else if b2 = '|' then
          let pos1 := advanceByte st.pos 1
          match rest2 with
          | [] => Except.error (.eofErr, { st with rem := rest2, pos := pos1 })
          | _ =>
            let (line, r) := readLineGo rest2
            let pos2 := advanceLine (advanceByte pos1 line.length)
            readCommentTail st.pending start 0 pos2 r
        else
          Except.ok ({ span := default, type := 0, value := "" }, { st with rem := rest })

/-- The collection loop of Decoder.readComments. -/
def readCommentsLoop (fuel : Nat) (obsolete : Bool) (start : Position)
    (acc : List Comment) (st : DecSt) : Except (PErr × DecSt) (Comments × DecSt) :=
  match fuel with
  | 0 => Except.error (.outOfFuel, st)
  | fuel + 1 =>
    if st.rem.length < 4 then Except.error (.eofErr, st)
    else
      let next := st.rem.take 4
      if obsolete then
        if next ≠ ['#', '~', ' ', '#'] then
          Except.ok ({ span := default, text := acc }, st)
        else
          match readPrefixObsolete st with
          | Except.error e => Except.error e
          | Except.ok st1 =>
            match readComment st1 with
            | Except.error e => Except.error e
            | Except.ok (c, st2) =>
              if c.type = 0 then
                Except.ok ({ span := mkSpan start st2.pos, text := acc }, st2)
              else readCommentsLoop fuel obsolete start (acc ++ [c]) st2
      else if next.take 2 = ['#', '~'] then Except.error (.endOfMessage, st)
      else
        match readComment st with
        | Except.error e => Except.error e
        | Except.ok (c, st2) =>
          if c.type = 0 then
            Except.ok ({ span := mkSpan start st2.pos, text := acc }, st2)
          else readCommentsLoop fuel obsolete start (acc ++ [c]) st2

/-- Decoder.readComments. On an obsolete message a peeked prefix other than
"#~ #" ends collection early (with the comments span left zero, as in the
source); on a regular message a peeked "#~" raises errEndOfMessage. -/
def readComments (fuel : Nat) (obsolete : Bool) (st : DecSt) :
    Except (PErr × DecSt) (Comments × DecSt) :=
  readCommentsLoop fuel obsolete st.pos [] st

/-- Decoder.readStringLiteral: read one line, require wrapping quotes after
trimming, decode escapes via strconv.Unquote. -/
def readStringLiteral (st : DecSt) : Except (PErr × DecSt) (StringLiteral × DecSt) :=
  match st.rem with
  | [] => Except.error (.eofErr, st)
  | _ =>
    let start := st.pos
    let (line, r) := readLineGo st.rem
    let trimmed := trimSpace line
    if trimmed.length < 2 ∨ trimmed.head? ≠ some '"' ∨ trimmed.getLast? ≠ some '"' then
      Except.error (.fatal (errAt st.pos "string literal"), { st with rem := r })
    else
      match goUnquote trimmed with
      | Except.error _ =>
        Except.error
          (.fatal { pos := st.pos, expected := "string literal", err := .unquoteFailed },
           { st with rem := r })
      | Except.ok v =>
        let pos' := advanceLine (advanceByte st.pos line.length)
        Except.ok ({ span := mkSpan start pos', value := String.mk v },
          { st with rem := r, pos := pos' })

/-- The collection loop of Decoder.readStringLiterals. -/
def readStringLiteralsLoop (fuel : Nat) (obsolete : Bool) (start : Position)
    (acc : List StringLiteral) (st : DecSt) :
    Except (PErr × DecSt) (StringLiterals × DecSt) :=
  match fuel with
  | 0 => Except.error (.outOfFuel, st)
  | fuel + 1 =>
    match st.rem with
    | [] => Except.error (.eofErr, st)
    | c :: _ =>
      if c ≠ '"' then Except.ok ({ span := mkSpan start st.pos, lines := acc }, st)
      else
        match readStringLiteral st with
        | Except.error e => Except.error e
        | Except.ok (s, st2) =>
          let acc := acc ++ [s]
          if obsolete then
            if st2.rem.length < 2 then Except.error (.eofErr, st2)
            else if st2.rem.take 2 ≠ ['#', '~'] then
              Except.ok ({ span := default, lines := acc }, st2)
            else
              match readPrefixObsolete st2 with
              | Except.error e => Except.error e
              | Except.ok st3 => readStringLiteralsLoop fuel obsolete start acc st3
          else readStringLiteralsLoop fuel obsolete start acc st2

/-- Decoder.readStringLiterals: contiguous quoted lines; on an obsolete
message each continuation line carries its own "#~ " prefix and a prefix
other than "#~" ends the literal list early (span left zero, as in the
source). -/
def readStringLiterals (fuel : Nat) (obsolete : Bool) (st : DecSt) :
    Except (PErr × DecSt) (StringLiterals × DecSt) :=
  let start := st.pos
  let st0 : Except (PErr × DecSt) DecSt :=
    if obsolete then readPrefixObsolete st else Except.ok st
  match st0 with
  | Except.error e => Except.error e
  | Except.ok st1 =>
    match st1.rem with
    | [] => Except.error (.eofErr, st1)
    | c :: _ =>
      if c ≠ '"' then Except.error (.fatal (errAt st1.pos "string literal"), st1)
      else readStringLiteralsLoop fuel obsolete start [] st1

/-- Decoder.readPluralIndex: "[", one decimal digit (0-9 accepted), "]" and
one space; returns the digit value. -/
def readPluralIndex (st : DecSt) : Except (PErr × DecSt) (Nat × DecSt) :=
  match st.rem with
  | [] => Except.error (.eofErr, st)
  | b :: r1 =>
    if b ≠ '[' then Except.error (.fatal (errAt st.pos "["), { st with rem := r1 })
    else
      let p1 := advanceByte st.pos 1
      match r1 with
      | [] => Except.error (.eofErr, { st with rem := r1, pos := p1 })
      | b2 :: r2 =>
        if ¬('0' ≤ b2 ∧ b2 ≤ '9') then
          Except.error (.fatal (errAt p1 "index 0-5"), { st with rem := r2, pos := p1 })
        else
          let p2 := advanceByte p1 1
          let idx := b2.toNat - 48
          match r2 with
          | [] => Except.error (.eofErr, { st with rem := r2, pos := p2 })
          | b3 :: r3 =>
            if b3 ≠ ']' then
              Except.error (.fatal (errAt p2 "]"), { st with rem := r3, pos := p2 })
            else
              let p3 := advanceByte p2 1
              match r3 with
              | [] => Except.error (.eofErr, { st with rem := r3, pos := p3 })
              | b4 :: r4 =>
                if b4 ≠ ' ' then
                  Except.error (.fatal (errAt p3 "space"), { st with rem := r4, pos := p3 })
                else Except.ok (idx, { st with rem := r4, pos := advanceByte p3 1 })

/-- Consume n already-peeked bytes of a directive keyword. -/
def consumeBytes (n : Nat) (st : DecSt) : DecSt :=
  { st with rem := st.rem.drop n, pos := advanceByte st.pos n }

/-- Tail of Decoder.readDirective after the keyword: one string literal,
then either the single-line form, the present-but-empty form (directive span
left zero, as in the source), or the multi-line continuation. -/
def readDirectiveTail (fuel : Nat) (obsolete : Bool) (start : Position)
    (comments : Comments) (ty idx : Nat) (st : DecSt) :
    Except (PErr × DecSt) (Directive × DecSt) :=
  let strStart := st.pos
  match readStringLiteral st with
  | Except.error e => Except.error e
  | Except.ok (str, st5) =>
    if str.value ≠ "" then
      Except.ok
        ({ span := mkSpan start st5.pos, comments := comments,
           text := { span := mkSpan strStart st5.pos, lines := [str] },
           dirType := ty, pluralFormIndex := idx }, st5)
    else
      let emptyCase : Except (PErr × DecSt) (Directive × DecSt) :=
        Except.ok
          ({ span := default, comments := comments,
             text := { span := mkSpan strStart st5.pos,
                       lines := [{ span := mkSpan strStart st5.pos, value := "" }] },
             dirType := ty, pluralFormIndex := idx }, st5)
      match st5.rem with
      | [] => emptyCase
      | c :: _ =>
        if c ≠ '"' then emptyCase
        else
          match readStringLiterals fuel obsolete st5 with
          | Except.error e => Except.error e
          | Except.ok (ls, st6) =>
            Except.ok
              ({ span := mkSpan start st6.pos, comments := comments, text := ls,
                 dirType := ty, pluralFormIndex := idx }, st6)

/-- Decoder.readDirective: comments, the obsolete prefix when applicable,
then one of the five directive keywords (longest match first, as in the
source); anything else raises errEndOfMessage. -/
def readDirective (fuel : Nat) (obsolete : Bool) (st : DecSt) :
    Except (PErr × DecSt) (Directive × DecSt) :=
  let start := st.pos
  match readComments fuel obsolete st with
  | Except.error e => Except.error e
  | Except.ok (comments, st1) =>
    let obsRes : Except (PErr × DecSt) DecSt :=
      if obsolete then
        match st1.rem with
        | [] => Except.error (.eofErr, st1)
        | b :: _ =>
          if b ≠ '#' then Except.error (.endOfMessage, st1)
          else readPrefixObsolete st1
      else Except.ok st1
    match obsRes with
    | Except.error e => Except.error e
    | Except.ok st2 =>
      let next := st2.rem.take 13
      if "msgctxt ".data.isPrefixOf next then
        readDirectiveTail fuel obsolete start comments 1 0 (consumeBytes 8 st2)
      else if "msgid_plural ".data.isPrefixOf next then
        readDirectiveTail fuel obsolete start comments 3 0 (consumeBytes 13 st2)
      else if "msgid ".data.isPrefixOf next then
        readDirectiveTail fuel obsolete start comments 2 0 (consumeBytes 6 st2)
      else if "msgstr[".data.isPrefixOf next then
        match readPluralIndex (consumeBytes 6 st2) with
        | Except.error e => Except.error e
        | Except.ok (idx, st3) =>
          readDirectiveTail fuel obsolete start comments 5 idx st3
      else if "msgstr ".data.isPrefixOf next then
        readDirectiveTail fuel obsolete start comments 4 0 (consumeBytes 7 st2)
      else Except.error (.endOfMessage, st2)

/-- Decoder.checkMsgstrIndexedAgainstPrevious: a non-successor index yields
the expected-token description for the previous index (none outside 0..5,
matching the switch without a default case). -/
def checkMsgstrIndexedAgainstPrevious (currentIndex previousIndex : Nat) :
    Option String :=
  if currentIndex ≠ previousIndex + 1 then
    match previousIndex with
    | 0 => some "msgstr[1]"
    | 1 => some "msgstr[2]"
    | 2 => some "msgstr[3]"
    | 3 => some "msgstr[4]"
    | 4 => some "msgstr[5]"
    | 5 => some "msgctxt or msgid"
    | _ => none
  else none

/-- Write an indexed msgstr slot 1..5 (index 0 is handled before this point
in readMessage; other values never reach the assignment). -/
def setIndexedSlot (m : Message) (idx : Nat) (slot : MsgSlot) : Message :=
  match idx with
  | 1 => { m with msgstr1 := slot }
  | 2 => { m with msgstr2 := slot }
  | 3 => { m with msgstr3 := slot }
  | 4 => { m with msgstr4 := slot }
  | 5 => { m with msgstr5 := slot }
  | _ => m

/-- Outcome of one directive against the readMessage state machine. -/
inductive StepOut where
  | stored (m : Message)
  | errS (expected : String)
  | endMsg
  | panicked (msg : String)
  | brk
deriving DecidableEq, Repr, Inhabited

/-- The directive switch of Decoder.readMessage: previous is the type of the
preceding directive (0 at entry start), prevIdx the previous plural index.
Every branch is the literal translation of the corresponding case of the
source, including: msgctxt/msgid after msgstr or an indexed msgstr ends the
message (one-directive pushback, StepOut.endMsg); msgid after msgid has no
case in the source switch and falls through silently; an indexed directive
with index 0 after an indexed directive reports "msgid_plural"; indices 6-9
reach the panic; others go through checkMsgstrIndexedAgainstPrevious. -/
def stepDirective (previous prevIdx : Nat) (dir : Directive) (m : Message) :
    StepOut :=
  let slot : MsgSlot :=
    { span := dir.span, comments := dir.comments, text := dir.text }
  match dir.dirType with
  | 1 =>
    match previous with
    | 0 => .stored { m with msgctxt := slot }
    | 1 => .errS "msgid"
    | 2 => .errS "msgstr or msgid_plural"
    | 3 => .errS "msgstr[0]"
    | 4 => .endMsg
    | 5 => .endMsg
    | _ => .stored m
  | 2 =>
    match previous with
    | 0 => .stored { m with msgid := slot }
    | 1 => .stored { m with msgid := slot }
    | 3 => .errS "msgstr[0]"
    | 4 => .endMsg
    | 5 => .endMsg
    | _ => .stored m
  | 3 =>
    match previous with
    | 2 => .stored { m with msgidPlural := slot }
    | _ => .errS "msgid"
  | 4 =>
    match previous with
    | 2 => .stored { m with msgstr := slot }
    | _ => .errS "msgid"
  | 5 =>
    match previous with
    | 3 =>
      if dir.pluralFormIndex ≠ 0 then .errS "msgstr[0]"
      else .stored { m with msgstr0 := slot }
    | 5 =>
      match dir.pluralFormIndex with
      | 0 => .errS "msgid_plural"
      | i =>
        if i ≤ 5 then
          match checkMsgstrIndexedAgainstPrevious i prevIdx with
          | some e => .errS e
          | none => .stored (setIndexedSlot m i slot)
        else .panicked ("unsupported plural form index: " ++ toString i)
    | 0 => .errS "msgid_plural"
    | 1 => .errS "msgid_plural"
    | 2 => .errS "msgid_plural"
    | 4 => .errS "msgid_plural"
    | _ => .stored m
  | _ => .brk

/-- Result of the readMessage loop before the deferred error rewriting. -/
inductive LoopOut where
  | brkDone (m : Message) (st : DecSt)
  | early (m : Message) (st : DecSt)
  | failed (e : PErr) (previous : Nat) (m : Message) (st : DecSt)
deriving DecidableEq, Repr, Inhabited

/-- The LOOP of Decoder.readMessage: on an obsolete message a prefix other
than "#~" ends the message; whitespace is skipped (EOF ignored); the pending
directive is consumed before reading a new one; the step outcome either
stores and continues, raises a syntax error at the current position, pushes
the directive back (pending) and returns the message, or panics. -/
def readMessageLoop (fuel : Nat) (m : Message) (previous prevIdx : Nat)
    (st : DecSt) : LoopOut :=
  match fuel with
  | 0 => .failed .outOfFuel previous m st
  | fuel + 1 =>
    if m.obsolete ∧ st.rem.length < 2 then .failed .eofErr previous m st
    else if m.obsolete ∧ st.rem.take 2 ≠ ['#', '~'] then
      .failed .endOfMessage previous m st
    else
      let ws := skipWs st.rem st.pos
      let st1 : DecSt := { st with rem := ws.1, pos := ws.2.1 }
      let dirRes : Except (PErr × DecSt) (Directive × DecSt) :=
        if st1.pending.dirType = 0 then readDirective fuel m.obsolete st1
        else
          Except.ok (st1.pending,
            { st1 with pending := { st1.pending with dirType := 0 } })
      match dirRes with
      | Except.error (e, st2) => .failed e previous m st2
      | Except.ok (dir, st2) =>
        if dir.dirType = 0 then .brkDone m st2
        else
          match stepDirective previous prevIdx dir m with
          | .stored m' =>
            readMessageLoop fuel m' dir.dirType dir.pluralFormIndex st2
          | .errS e => .failed (.fatal (errAt st2.pos e)) previous m st2
          | .endMsg => .early m { st2 with pending := dir }
          | .panicked s => .failed (.panicked s) previous m st2
          | .brk => .brkDone m st2

/-- Errors surfacing from readMessage after the deferred rewriting: fatal
gettext.Error, the panic, or fuel exhaustion. -/
inductive RFail where
  | fatalR (e : GError)
  | panickedR (msg : String)
  | fuelR
deriving DecidableEq, Repr, Inhabited

/-- Decoder.readMessage: obsolete detection by peeking "#~", the loop, the
message span on the break path (the pushback path returns without setting
it), and the deferred conversion of errEndOfMessage and io.EOF into either a
syntax error naming the still-expected directive or a successful return when
the previous directive was msgstr or an indexed msgstr. -/
def readMessage (fuel : Nat) (st : DecSt) :
    Except (RFail × DecSt) (Message × DecSt) :=
  let start := st.pos
  let obs : Bool := (2 ≤ st.rem.length) && (st.rem.take 2 == ['#', '~'])
  let m0 : Message := { (default : Message) with obsolete := obs }
  match readMessageLoop fuel m0 0 0 st with
  | .brkDone m st' => Except.ok ({ m with span := mkSpan start st'.pos }, st')
  | .early m st' => Except.ok (m, st')
  | .failed e previous m st' =>
    match e with
    | .endOfMessage =>
      match previous with
      | 0 => Except.error (.fatalR (errAt st'.pos "msgctxt or msgid"), st')
      | 1 => Except.error (.fatalR (errAt st'.pos "msgid"), st')
      | 2 => Except.error (.fatalR (errAt st'.pos "msgid_plural or msgstr"), st')
      | 3 => Except.error (.fatalR (errAt st'.pos "msgstr"), st')
      | _ => Except.ok (m, st')
    | .eofErr =>
      match previous with
      | 0 =>
        Except.error (.fatalR
          { pos := st'.pos, expected := "msgctxt or msgid", err := .unexpectedEOF }, st')
      | 1 =>
        Except.error (.fatalR
          { pos := st'.pos, expected := "msgid", err := .unexpectedEOF }, st')
      | 2 =>
        Except.error (.fatalR
          { pos := st'.pos, expected := "msgid_plural or msgstr",
            err := .unexpectedEOF }, st')
      | 3 =>
        Except.error (.fatalR
          { pos := st'.pos, expected := "msgstr", err := .unexpectedEOF }, st')
      | _ => Except.ok (m, st')
    | .fatal g => Except.error (.fatalR g, st')
    | .panicked s => Except.error (.panickedR s, st')
    | .outOfFuel => Except.error (.fuelR, st')

/-! ### Header parsing (decoder.go parseHead, parsePluralFormsHeader) -/

/-- Break a char list at the first occurrence of c. -/
def breakAt (c : Char) : List Char → Option (List Char × List Char)
  | [] => none
  | x :: r =>
    if x = c then some ([], r)
    else (breakAt c r).map (fun p => (x :: p.1, p.2))

/-- splitHeader (decoder.go): name before the first colon, value trimmed;
both empty when there is no colon. -/
def splitHeader (s : List Char) : List Char × List Char :=
  match breakAt ':' s with
  | none => ([], [])
  | some (n, v) => (n, trimSpace v)

/-- strings.Split(s, "\n") (accumulator form). -/
def goSplitNlAux : List Char → List Char → List (List Char)
  | [], acc => [acc.reverse]
  | '\n' :: rest, acc => acc.reverse :: goSplitNlAux rest []
  | c :: rest, acc => goSplitNlAux rest (c :: acc)

/-- strings.Split(s, "\n"). -/
def goSplitNl (cs : List Char) : List (List Char) := goSplitNlAux cs []

/-- RE2 whitespace class as used in the Plural-Forms pattern. -/
def skipReWs (cs : List Char) : List Char :=
  cs.dropWhile (fun c => c = ' ' || c = '\t' || c = '\n' || c = '\x0c' || c = '\r')

/-- Expect a literal char sequence. -/
def dropLit : List Char → List Char → Option (List Char)
  | [], cs => some cs
  | _ :: _, [] => none
  | l :: ls, c :: cs => if c = l then dropLit ls cs else none

/-- Expect one char. -/
def expectCh (c : Char) : List Char → Option (List Char)
  | [] => none
  | x :: r => if x = c then some r else none

/-- One anchored attempt of the regular expression
nplurals\s*=\s*(\d+)\s*;\s*plural\s*=\s*([^;]+)\s*; returning the two
captures (the expression capture is the maximal run of non-semicolon chars,
whitespace included, per leftmost-first greedy semantics). -/
def matchPluralFormsAt (cs : List Char) : Option (List Char × List Char) := do
  let cs ← dropLit "nplurals".data cs
  let cs := skipReWs cs
  let cs ← expectCh '=' cs
  let cs := skipReWs cs
  let ds := cs.takeWhile (fun c => '0' ≤ c ∧ c ≤ '9')
  if ds = [] then none
  else do
    let cs := cs.drop ds.length
    let cs := skipReWs cs
    let cs ← expectCh ';' cs
    let cs := skipReWs cs
    let cs ← dropLit "plural".data cs
    let cs := skipReWs cs
    let cs ← expectCh '=' cs
    let cs := skipReWs cs
    let ex := cs.takeWhile (fun c => c ≠ ';')
    if ex = [] then none
    else do
      let cs := cs.drop ex.length
      let _ ← expectCh ';' cs
      some (ds, ex)

/-- regexp.FindStringSubmatch of the Plural-Forms pattern: leftmost match of
the anchored attempt. -/
def pluralFormsFind : List Char → Option (List Char × List Char)
  | [] => none
  | c :: rest =>
    match matchPluralFormsAt (c :: rest) with
    | some r => some r
    | none => pluralFormsFind rest

/-- parsePluralFormsHeader (decoder.go): regexp match into (N, expr); no
match, or a matched number that does not fit a uint8 (strconv.ParseUint with
bitSize 8), is the malformed-Plural-Forms error. -/
def parsePluralFormsHeader (s : String) : Except ErrKind (Nat × String) :=
  match pluralFormsFind s.data with
  | none => Except.error .malformedHeaderPluralForms
  | some (ds, ex) =>
    let n := natOfDigits ds
    if n > 255 then Except.error .malformedHeaderPluralForms
    else Except.ok (n, String.mk ex)

/-- The header switch of Decoder.parseHead, iterated over the "\n"-split
key-value lines with the duplicate-key set. -/
def parseHeadLoop (template : Bool) (pos : Position) :
    List (List Char) → List String → FileHead → Except GError FileHead
  | [], _, h => Except.ok h
  | line :: rest, seen, h =>
    if line = [] then parseHeadLoop template pos rest seen h
    else
      let nv := splitHeader line
      let name := String.mk nv.1
      let value := String.mk nv.2
      if seen.contains name then
        Except.error { pos := pos, expected := "", err := .duplicateHeader }
      else
        let seen := seen ++ [name]
        if name = "Project-Id-Version" then
          parseHeadLoop template pos rest seen { h with projectIdVersion := value }
        else if name = "Report-Msgid-Bugs-To" then
          parseHeadLoop template pos rest seen { h with reportMsgidBugsTo := value }
        else if name = "POT-Creation-Date" then
          parseHeadLoop template pos rest seen { h with potCreationDate := value }
        else if name = "PO-Revision-Date" then
          parseHeadLoop template pos rest seen { h with poRevisionDate := value }
        else if name = "Last-Translator" then
          parseHeadLoop template pos rest seen { h with lastTranslator := value }
        else if name = "Language-Team" then
          parseHeadLoop template pos rest seen { h with languageTeam := value }
        else if name = "Language" then
          if template ∧ value ≠ "" then
            Except.error { pos := pos, expected := "", err := .languageInTemplate }
          else if languageParseOk value then
            parseHeadLoop template pos rest seen
              { h with language := { value := value, locale := value } }
          else
            Except.error { pos := pos, expected := "", err := .malformedHeaderLanguage }
        else if name = "MIME-Version" then
          if value ≠ "1.0" then
            Except.error { pos := pos, expected := "", err := .unsupportedMIMEVersion }
          else parseHeadLoop template pos rest seen { h with mimeVersion := value }
        else if name = "Content-Type" then
          if ¬ mimeParseMediaTypeOk value then
            Except.error
              { pos := pos, expected := "", err := .malformedHeaderContentType }
          else if value ≠ "text/plain; charset=UTF-8" then
            Except.error { pos := pos, expected := "", err := .unsupportedContentType }
          else parseHeadLoop template pos rest seen { h with contentType := value }
        else if name = "Content-Transfer-Encoding" then
          if value ≠ "8bit" then
            Except.error
              { pos := pos, expected := "",
                err := .unsupportedContentTransferEncoding }
          else
            parseHeadLoop template pos rest seen
              { h with contentTransferEncoding := value }
        else if name = "Plural-Forms" then
          match parsePluralFormsHeader value with
          | Except.error ek => Except.error { pos := pos, expected := "", err := ek }
          | Except.ok ne =>
            parseHeadLoop template pos rest seen
              { h with pluralForms := { n := ne.1, expression := ne.2 } }
        else if name.startsWith "X-" then
          if h.nonStandard.any (fun x => x.name = name) then
            Except.error { pos := pos, expected := "", err := .duplicateHeader }
          else
            parseHeadLoop template pos rest seen
              { h with nonStandard := h.nonStandard ++ [{ name := name, value := value }] }
        else Except.error { pos := pos, expected := "", err := .unsupportedHeader }

/-- Decoder.parseHead: the reserved first entry must carry no msgctxt,
msgid_plural or indexed slot, an empty msgid text, and at least one msgstr
line; the msgstr body is split on "\n" into the header fields; the msgid
comments become the head comments. -/
def parseHead (m : Message) (template : Bool) : Except GError FileHead :=
  if ¬ m.msgctxt.span.isZero then
    Except.error { pos := m.msgctxt.span.pos, expected := "", err := .noErr }
  else if ¬ m.msgidPlural.span.isZero then
    Except.error { pos := m.msgidPlural.span.pos, expected := "", err := .noErr }
  else if ¬ m.msgstr0.span.isZero then
    Except.error { pos := m.msgstr0.span.pos, expected := "", err := .noErr }
  else if ¬ m.msgstr1.span.isZero then
    Except.error { pos := m.msgstr1.span.pos, expected := "", err := .noErr }
  else if ¬ m.msgstr2.span.isZero then
    Except.error { pos := m.msgstr2.span.pos, expected := "", err := .noErr }
  else if ¬ m.msgstr3.span.isZero then
    Except.error { pos := m.msgstr3.span.pos, expected := "", err := .noErr }
  else if ¬ m.msgstr4.span.isZero then
    Except.error { pos := m.msgstr4.span.pos, expected := "", err := .noErr }
  else if ¬ m.msgstr5.span.isZero then
    Except.error { pos := m.msgstr5.span.pos, expected := "", err := .noErr }
  else if m.msgid.text.str ≠ "" then
    Except.error { pos := m.msgid.span.pos, expected := "empty msgid", err := .noErr }
  else if m.msgstr.text.lines.length < 1 then
    Except.error
      { pos := m.msgid.span.pos, expected := "msgstr with headers", err := .noErr }
  else
    match parseHeadLoop template m.msgstr.span.pos
        (goSplitNl (m.msgstr.text.str).data) [] default with
    | Except.error g => Except.error g
    | Except.ok h => Except.ok { h with headComments := m.msgid.comments }

/-! ### Top-level decode (decoder.go decode, DecodePO, DecodePOT) -/

/-- Result of one decode call: a File, a gettext.Error, the panic value, or
the fuel artifact (never produced on the inputs used in the theorems). -/
inductive DecodeResult where
  | ok (f : File)
  | err (e : GError)
  | panicked (msg : String)
  | outOfFuel
deriving DecidableEq, Repr, Inhabited

/-- The message loop of Decoder.decode: whitespace then one message per
round until EOF; at EOF a still-pending directive is the unexpected-EOF
error naming what was expected (the strings, including the "mstctxt" typo,
are those of the source). -/
def decodeLoop (fuel : Nat) (head : FileHead) (acc : List Message)
    (st : DecSt) : DecodeResult :=
  match fuel with
  | 0 => .outOfFuel
  | fuel + 1 =>
    let ws := skipWs st.rem st.pos
    let st1 : DecSt := { st with rem := ws.1, pos := ws.2.1 }
    if ws.2.2 then
      match st1.pending.dirType with
      | 0 => .ok { head := head, messages := acc }
      | 1 => .err (errAt st1.pos "msgid")
      | 2 => .err (errAt st1.pos "msgid_plural or msgstr")
      | 3 => .err (errAt st1.pos "msgstr[0]")
      | 4 => .err (errAt st1.pos "msgid or mstctxt")
      | _ =>
        if st1.pending.pluralFormIndex < 5 then
          .err (errAt st1.pos
            ("msgstr[" ++ toString (st1.pending.pluralFormIndex + 1) ++ "]"))
        else .err (errAt st1.pos "msgid or mstctxt")
    else
      match readMessage fuel st1 with
      | Except.error (.fatalR g, _) => .err g
      | Except.error (.panickedR s, _) => .panicked s
      | Except.error (.fuelR, _) => .outOfFuel
      | Except.ok (m, st2) => decodeLoop fuel head (acc ++ [m]) st2

/-- Decoder.decode: reset, read the head message, parse the header, then the
message loop. -/
def decodeFile (fileName : String) (input : String) (template : Bool) :
    DecodeResult :=
  let st0 : DecSt :=
    { rem := input.data,
      pos := { filename := fileName, index := 0, line := 1, column := 1 },
      pending := default }
  let fuel := input.length * 2 + 16
  match readMessage fuel st0 with
  | Except.error (.fatalR g, _) => .err g
  | Except.error (.panickedR s, _) => .panicked s
  | Except.error (.fuelR, _) => .outOfFuel
  | Except.ok (mHead, st1) =>
    match parseHead mHead template with
    | Except.error g => .err g
    | Except.ok h => decodeLoop fuel h [] st1

/-- Decoder.DecodePO. -/
def decodePO (fileName : String) (input : String) : DecodeResult :=
  decodeFile fileName input false

/-- Decoder.DecodePOT. -/
def decodePOT (fileName : String) (input : String) : DecodeResult :=
  decodeFile fileName input true

/-- The expected-token description of a decode error, if any. -/
def DecodeResult.expectedOf : DecodeResult → Option String
  | .err e => some e.expected
  | _ => none

/-- Did decode produce a File. -/
def DecodeResult.isOk : DecodeResult → Bool
  | .ok _ => true
  | _ => false

/-- The wrapped sentinel error of a decode error, if any. -/
def DecodeResult.errKindOf : DecodeResult → Option ErrKind
  | .err e => some e.err
  | _ => none

/-- The decoded message list (empty unless decode succeeded). -/
def DecodeResult.msgsOf : DecodeResult → List Message
  | .ok f => f.messages
  | _ => []

/-- The decoded file, or the zero File on failure. -/
def DecodeResult.fileOf : DecodeResult → File
  | .ok f => f
  | _ => default

/-! ### Synchronization engine
(cmd/localize: updateTranslationCatalogs, updateComments, sortCommentsByType;
internal/codeparser: Msg, MsgMeta, MsgFromGettextMessage) -/

/-- codeparser.Msg: one extracted message; Hash is its stable identity. -/
structure MsgC where
  hash : String
  description : String
  zero : String
  one : String
  two : String
  few : String
  many : String
  other : String
  funcType : String
deriving DecidableEq, Repr, Inhabited

/-- go/token.Position as carried in codeparser.MsgMeta. -/
structure TokenPosition where
  filename : String
  offset : Nat
  line : Nat
  column : Nat
deriving DecidableEq, Repr, Inhabited

/-- codeparser.MsgMeta: the source positions of one extracted message. -/
structure MsgMetaC where
  pos : List TokenPosition
deriving DecidableEq, Repr, Inhabited

/-- cldr.CLDRPluralForm constants (uint8, 0 invalid, then the six CLDR
cardinal classes in order). -/
def cldrFormZero : Nat := 1

/-- cldr.CLDRPluralFormOne. -/
def cldrFormOne : Nat := 2

/-- cldr.CLDRPluralFormTwo. -/
def cldrFormTwo : Nat := 3

/-- cldr.CLDRPluralFormFew. -/
def cldrFormFew : Nat := 4

/-- cldr.CLDRPluralFormMany. -/
def cldrFormMany : Nat := 5

/-- cldr.CLDRPluralFormOther. -/
def cldrFormOther : Nat := 6

/-- cldr.PluralForms restricted to the field the synchronization engine and
MsgFromGettextMessage read: the ordered cardinal classes of the locale. -/
structure PluralFormsC where
  cardinalForms : List Nat
deriving DecidableEq, Repr, Inhabited

/-- A single-line text slot as built by MsgFromGettextMessage. -/
def textOnlySlot (v : String) : MsgSlot :=
  { span := default, comments := default,
    text := { span := default, lines := [{ span := default, value := v }] } }

/-- The addText closure of MsgFromGettextMessage: write a fresh single-line
text into indexed slot 0..5 (other indices are ignored by the switch). -/
def addTextAt (i : Nat) (v : String) (m : Message) : Message :=
  match i with
  | 0 => { m with msgstr0 := textOnlySlot v }
  | 1 => { m with msgstr1 := textOnlySlot v }
  | 2 => { m with msgstr2 := textOnlySlot v }
  | 3 => { m with msgstr3 := textOnlySlot v }
  | 4 => { m with msgstr4 := textOnlySlot v }
  | 5 => { m with msgstr5 := textOnlySlot v }
  | _ => m

/-- The loop over pluralForms.CardinalForms in MsgFromGettextMessage:
slot i receives the message text of the i-th cardinal class (classes outside
the six known ones write nothing, as the switch has no default case). -/
def addCardinalForms (msg : MsgC) : Nat → List Nat → Message → Message
  | _, [], m => m
  | i, f :: rest, m =>
    let m :=
      if f = cldrFormZero then addTextAt i msg.zero m
      else if f = cldrFormOne then addTextAt i msg.one m
      else if f = cldrFormTwo then addTextAt i msg.two m
      else if f = cldrFormFew then addTextAt i msg.few m
      else if f = cldrFormMany then addTextAt i msg.many m
      else if f = cldrFormOther then addTextAt i msg.other m
      else m
    addCardinalForms msg (i + 1) rest m

/-- codeparser.MsgFromGettextMessage: msgctxt carries the hash as its text
and the reference comments (one per source position) followed by the
extracted description comment when present; a plural message fills msgid
with the One form, msgid_plural with Other and the indexed slots per the
locale's cardinal classes; a regular message fills msgid and msgstr with the
Other form. -/
def msgFromGettextMessage (pf : PluralFormsC) (msg : MsgC) (meta : MsgMetaC) :
    Message :=
  let refs : List Comment := meta.pos.map (fun p =>
    { span := default, type := commentTypeReference,
      value := fmtCodeRef p.filename p.line })
  let commentList := refs ++
    (if msg.description ≠ "" then
      [{ span := default, type := commentTypeExtracted, value := msg.description }]
     else [])
  let gm : Message :=
    { (default : Message) with
      msgctxt :=
        { span := default,
          comments := { span := default, text := commentList },
          text := { span := default,
                    lines := [{ span := default, value := msg.hash }] } } }
  if msg.funcType = "Plural" ∨ msg.funcType = "PluralBlock" then
    let gm := { gm with
      msgid := textOnlySlot msg.one
      msgidPlural := textOnlySlot msg.other }
    addCardinalForms msg 0 pf.cardinalForms gm
  else
    { gm with
      msgid := textOnlySlot msg.other
      msgstr := textOnlySlot msg.other }

/-- The indexOfPos closure of updateComments, used only as a found-or-not test:
does any extracted position format to the given reference comment value. -/
def indexOfPosFound (posList : List TokenPosition) (comment : String) : Bool :=
  posList.any (fun p => fmtCodeRef p.filename p.line = comment)

/-- slices.Delete(s, ci, ci+1) as seen through the fixed-length backing
array: elements ci+1 .. dstLen-1 move down one slot, slot dstLen-1 is
zeroed, and slots at dstLen and beyond are untouched. -/
def shiftDeleteAt (arr : List Comment) (ci dstLen : Nat) : List Comment :=
  arr.take ci ++ (arr.drop (ci + 1)).take (dstLen - ci - 1) ++
    [default] ++ arr.drop dstLen

/-- The reference-deletion loop of updateComments. Go ranges over the
original slice header (fixed length) while slices.Delete mutates the shared
backing array in place, so iteration index ci reads the CURRENT array
contents: after a delete, the elements have shifted under the still-running
loop. k counts the remaining iterations; dstLen is the current slice length.
Zeroed tail elements (type 0) are skipped, so no out-of-range delete occurs. -/
def refDeleteLoop (posList : List TokenPosition) (ci : Nat) :
    Nat → List Comment → Nat → (List Comment × Nat)
  | 0, arr, dstLen => (arr, dstLen)
  | k + 1, arr, dstLen =>
    let com := arr.getD ci default
    if com.type = commentTypeReference ∧ ¬ indexOfPosFound posList com.value then
      refDeleteLoop posList (ci + 1) k (shiftDeleteAt arr ci dstLen) (dstLen - 1)
    else refDeleteLoop posList (ci + 1) k arr dstLen

/-- The first loop of updateComments: remove reference comments whose value
no longer formats any extracted position (with the range/Delete interaction
of the source). -/
def deleteStaleRefs (posList : List TokenPosition) (comments : List Comment) :
    List Comment :=
  let n := comments.length
  let r := refDeleteLoop posList 0 n comments n
  r.1.take r.2

/-- The second loop of updateComments: append a reference comment for every
extracted position that no existing reference comment already formats. -/
def appendNewRefs (comments : List Comment) : List TokenPosition → List Comment
  | [] => comments
  | p :: rest =>
    let formatted := fmtCodeRef p.filename p.line
    let comments :=
      if comments.any
          (fun c => c.type = commentTypeReference ∧ c.value = formatted) then
        comments
      else
        comments ++
          [{ span := default, type := commentTypeReference, value := formatted }]
    appendNewRefs comments rest

/-- Insert into a type-sorted comment list, before the first strictly
greater type. -/
def insertByType (c : Comment) : List Comment → List Comment
  | [] => [c]
  | x :: xs => if x.type < c.type then x :: insertByType c xs else c :: x :: xs

/-- Comparison-sort of a comment list by type. Go slices.SortFunc with
cmp.Compare on the type is an unstable comparison sort; it is modelled by an
insertion sort. Every theorem below depends only on membership in the sorted
list, which is the same for every type-ordered permutation. -/
def sortByType : List Comment → List Comment
  | [] => []
  | c :: cs => insertByType c (sortByType cs)

/-- sortCommentsByType on one slot. -/
def sortSlotComments (s : MsgSlot) : MsgSlot :=
  { s with comments := { s.comments with text := sortByType s.comments.text } }

/-- cmd/localize sortCommentsByType: sorts the comments of all ten slots. -/
def sortCommentsByType (m : Message) : Message :=
  { m with
    msgctxt := sortSlotComments m.msgctxt
    msgid := sortSlotComments m.msgid
    msgidPlural := sortSlotComments m.msgidPlural
    msgstr := sortSlotComments m.msgstr
    msgstr0 := sortSlotComments m.msgstr0
    msgstr1 := sortSlotComments m.msgstr1
    msgstr2 := sortSlotComments m.msgstr2
    msgstr3 := sortSlotComments m.msgstr3
    msgstr4 := sortSlotComments m.msgstr4
    msgstr5 := sortSlotComments m.msgstr5 }

/-- cmd/localize updateComments: sync the msgctxt reference comments of dst
with the extracted positions, then re-sort all comment lists by type. -/
def updateComments (dst : Message) (meta : MsgMetaC) : Message :=
  let cs := deleteStaleRefs meta.pos dst.msgctxt.comments.text
  let cs := appendNewRefs cs meta.pos
  sortCommentsByType
    { dst with msgctxt :=
      { dst.msgctxt with comments := { dst.msgctxt.comments with text := cs } } }

/-- Go map lookup on the inCatalog association list: a later write for the
same key overrides an earlier one. -/
def catLookup : List (String × Nat) → String → Option Nat
  | [], _ => none
  | kv :: rest, key =>
    match catLookup rest key with
    | some r => some r
    | none => if kv.1 = key then some kv.2 else none

/-- The first loop of updateTranslationCatalogs over the existing catalog
entries (index i): an entry whose msgctxt hash is absent from the extraction
and already obsolete is skipped entirely (continue: untouched, not logged,
not registered in inCatalog); an absent non-obsolete entry is marked
obsolete and logged; every non-skipped entry is registered in inCatalog
under its msgctxt with its index. -/
def phase1 (hashes : List String) : List Message → Nat →
    (List Message × List (String × Nat) × List String)
  | [], _ => ([], [], [])
  | m :: rest, i =>
    let msgctxt := m.msgctxt.text.str
    let r := phase1 hashes rest (i + 1)
    if hashes.contains msgctxt = true then
      (m :: r.1, (msgctxt, i) :: r.2.1, r.2.2)
    else if m.obsolete = true then
      (m :: r.1, r.2.1, r.2.2)
    else
      ({ m with obsolete := true } :: r.1, (msgctxt, i) :: r.2.1,
       msgctxt :: r.2.2)

/-- The seven blanking if-blocks applied to a new catalog entry in
updateTranslationCatalogs: every populated translation slot is replaced by a
single zero string literal. -/
def blankSlotIfPopulated (s : MsgSlot) : MsgSlot :=
  if s.text.lines.length > 0 then
    { s with text := { span := default, lines := [default] } }
  else s

/-- All seven blanking if-blocks of the new-message branch. -/
def blankNewMsg (m : Message) : Message :=
  { m with
    msgstr := blankSlotIfPopulated m.msgstr
    msgstr0 := blankSlotIfPopulated m.msgstr0
    msgstr1 := blankSlotIfPopulated m.msgstr1
    msgstr2 := blankSlotIfPopulated m.msgstr2
    msgstr3 := blankSlotIfPopulated m.msgstr3
    msgstr4 := blankSlotIfPopulated m.msgstr4
    msgstr5 := blankSlotIfPopulated m.msgstr5 }

/-- The second loop of updateTranslationCatalogs over the extracted
collection (the iteration order of the Go map is a parameter: the list
order): a hash absent from inCatalog synthesizes a new blanked entry and
appends it; a present hash updates the registered entry's comments in place
(the stored pointer is the index captured in phase 1). -/
def phase2 (cat : List (String × Nat)) (pf : PluralFormsC) :
    List (MsgC × MsgMetaC) → List Message → List String →
    (List Message × List String)
  | [], msgs, lg => (msgs, lg)
  | mm :: rest, msgs, lg =>
    match catLookup cat mm.1.hash with
    | none =>
      let nm := blankNewMsg (msgFromGettextMessage pf mm.1 mm.2)
      phase2 cat pf rest (msgs ++ [nm]) (lg ++ [mm.1.hash])
    | some i =>
      phase2 cat pf rest (msgs.set i (updateComments (msgs.getD i default) mm.2)) lg

/-- The per-catalog body of updateTranslationCatalogs: index existing
entries and mark obsolete ones (phase 1), then add or update from the
extracted collection (phase 2). Returns the new message list and the two
logs (obsolete-marked msgctxt hashes, then added hashes). -/
def updateCatalogMessages (coll : List (MsgC × MsgMetaC)) (pf : PluralFormsC)
    (msgs : List Message) : List Message × List String :=
  let hashes := coll.map (fun p => p.1.hash)
  let r1 := phase1 hashes msgs 0
  let r2 := phase2 r1.2.1 pf coll r1.1 []
  (r2.1, r1.2.2 ++ r2.2)

/-! ### Proof-side helper definitions -/

/-- The per-entry effect of the first updateTranslationCatalogs loop on the
message itself (the loop also builds the index and the log). -/
def phase1mark (hashes : List String) (m : Message) : Message :=
  if hashes.contains m.msgctxt.text.str = true then m
  else if m.obsolete = true then m
  else { m with obsolete := true }

/-- An entry the synchronization run never marks again: it is either already
obsolete or its msgctxt hash is part of the extracted set. -/
def entryRetained (hashes : List String) (m : Message) : Prop :=
  m.obsolete = true ∨ hashes.contains m.msgctxt.text.str = true

/-- The relation between an original translation slot and its MakePOT image:
comments and span kept, a populated text blanked to one empty line, an empty
text left empty. -/
def blankedFrom (orig res : MsgSlot) : Prop :=
  res.comments = orig.comments ∧ res.span = orig.span ∧
  (orig.text.lines ≠ [] → res.text.lines = [{ span := default, value := "" }]) ∧
  (orig.text.lines = [] → res.text.lines = [])

/-- The Plural-Forms grammar exactly as the specification words it:
the value is "nplurals=" ++ digits ++ "; plural=" ++ expr ++ ";" and nothing
else, with a non-empty digit run and a non-empty semicolon-free expression.
Stated from the spec text, for comparison against the implementation. -/
def specPluralFormsGrammar (s : String) : Bool :=
  match dropLit "nplurals=".data s.data with
  | none => false
  | some cs =>
    let ds := cs.takeWhile (fun c => '0' ≤ c ∧ c ≤ '9')
    if ds = [] then false
    else
      match dropLit "; plural=".data (cs.drop ds.length) with
      | none => false
      | some cs2 =>
        let ex := cs2.takeWhile (fun c => c ≠ ';')
        decide (ex ≠ []) && decide (cs2.drop ex.length = [';'])

/-! ### Concrete fixtures used by the theorems -/

/-- A well-formed .po input with the standard header and one translated
message. -/
def c1Input : String :=
  "msgid \"\"\nmsgstr \"\"\n" ++
  "\"MIME-Version: 1.0\\n\"\n" ++
  "\"Content-Type: text/plain; charset=UTF-8\\n\"\n" ++
  "\"Content-Transfer-Encoding: 8bit\\n\"\n" ++
  "\"Plural-Forms: nplurals=2; plural=n != 1;\\n\"\n" ++
  "\nmsgid \"hello\"\nmsgstr \"hallo\"\n"

/-- The File decoded from c1Input. -/
def c1File : File := (decodePO "test.po" c1Input).fileOf

/-- The bytes produced by re-encoding the decoded File. -/
def c1Reencoded : String := encodePO { file := c1File }

/-- A minimal valid header entry followed by one blank line. -/
def hdrMin : String := "msgid \"\"\nmsgstr \"\"\n\n"

/-- A plural entry whose second indexed directive repeats index 0. -/
def c2Input : String :=
  hdrMin ++ "msgid \"a\"\nmsgid_plural \"b\"\nmsgstr[0] \"x\"\nmsgstr[0] \"y\"\n"

/-- Two complete singular entries with no blank line between them: the
msgid of the second entry directly follows the msgstr of the first. -/
def c3Input : String :=
  "msgid \"\"\nmsgstr \"\"\nmsgid \"a\"\nmsgstr \"b\"\nmsgid \"c\"\nmsgstr \"d\"\n"

/-- End of input immediately after a msgid_plural directive. -/
def c7PluralEOF : String := hdrMin ++ "msgid \"a\"\nmsgid_plural \"b\"\n"

/-- End of input immediately after a msgstr directive. -/
def c7MsgstrEnd : String := hdrMin ++ "msgid \"a\"\nmsgstr \"b\"\n"

/-- End of input immediately after an indexed msgstr directive. -/
def c7IndexedEnd : String :=
  hdrMin ++ "msgid \"a\"\nmsgid_plural \"b\"\nmsgstr[0] \"x\"\nmsgstr[1] \"y\"\n"

/-- A header whose Plural-Forms value matches the written grammar with a
class count that does not fit a uint8. -/
def c8Overflow : String :=
  "msgid \"\"\nmsgstr \"\"\n\"Plural-Forms: nplurals=300; plural=x;\\n\"\n" ++
  "\nmsgid \"a\"\nmsgstr \"b\"\n"

/-- A header with a well-formed Plural-Forms value. -/
def c8Good : String :=
  "msgid \"\"\nmsgstr \"\"\n\"Plural-Forms: nplurals=2; plural=n != 1;\\n\"\n" ++
  "\nmsgid \"a\"\nmsgstr \"b\"\n"

/-- A header whose Plural-Forms value matches the grammar nowhere. -/
def c8NoMatch : String :=
  "msgid \"\"\nmsgstr \"\"\n\"Plural-Forms: two forms\\n\"\n" ++
  "\nmsgid \"a\"\nmsgstr \"b\"\n"

/-- A plural entry with msgstr[6] following msgstr[0]: the plural-index
reader accepts the digit 6 and the message state machine then reaches the
default branch of its slot switch. -/
def c9Input : String :=
  hdrMin ++ "msgid \"a\"\nmsgid_plural \"b\"\nmsgstr[0] \"x\"\nmsgstr[6] \"y\"\n"

/-- A reference comment with the given value. -/
def refComment (v : String) : Comment :=
  { span := default, type := commentTypeReference, value := v }

/-- A msgctxt slot carrying a hash text and the given comments. -/
def ctxSlot (h : String) (cs : List Comment) : MsgSlot :=
  { span := default, comments := { span := default, text := cs },
    text := { span := default, lines := [{ span := default, value := h }] } }

/-- A catalog entry with two stale reference comments (neither is reported
by the extraction below) and a human translation. -/
def c4Entry : Message :=
  { (default : Message) with
    msgctxt := ctxSlot "h1" [refComment "a.go:1", refComment "b.go:2"]
    msgstr := textOnlySlot "Hallo" }

/-- Extraction metadata reporting one position, c.go line 3. -/
def c4Meta : MsgMetaC :=
  { pos := [{ filename := "c.go", offset := 0, line := 3, column := 1 }] }

/-- A catalog entry for the synchronization fixtures. -/
def mkCatEntry (h : String) (obs : Bool) (tr : String) : Message :=
  { (default : Message) with
    obsolete := obs
    msgctxt := ctxSlot h []
    msgid := textOnlySlot ("id-" ++ h)
    msgstr := textOnlySlot tr }

/-- An extracted text message with the given hash. -/
def mkExtracted (h other : String) : MsgC :=
  { hash := h, description := "", zero := "", one := "", two := "", few := "",
    many := "", other := other, funcType := "Text" }

/-- Extraction set: only hash "abc" is still present. -/
def collFixture : List (MsgC × MsgMetaC) :=
  [(mkExtracted "abc" "T",
    { pos := [{ filename := "m.go", offset := 0, line := 7, column := 1 }] })]

/-- A two-class locale (one, other). -/
def pfFixture : PluralFormsC := { cardinalForms := [cldrFormOne, cldrFormOther] }

/-- Existing catalog: "abc" still extracted, "old" no longer extracted and
not yet obsolete, "gone" no longer extracted and already obsolete. -/
def catFixture : List Message :=
  [mkCatEntry "abc" false "Hallo", mkCatEntry "old" false "Alt",
   mkCatEntry "gone" true "Weg"]

/-- A file with one obsolete entry (with a populated translation) and one
live entry, for the MakePOT theorems. -/
def c6File : FilePO :=
  { file :=
    { head := default
      messages := [mkCatEntry "weg" true "Weg", mkCatEntry "da" false "Da"] } }

/-! ### Claim theorems -/

/-- C1: the encode/decode round trip is broken in the code, contradicting
both the claim and the repository's own TestDecodeEncode: decoding a
well-formed catalog succeeds and stores Plural-Forms as the pair (2, n != 1),
but re-encoding prints the HeaderPluralForms struct through the %s verb,
producing a Plural-Forms header the decoder's fixed grammar rejects, so
decode(encode(f)) fails with the malformed-Plural-Forms error (and
encode(decode(x)) differs from x on the same line) for every file whose
header decode accepted. -/
theorem c1_roundtrip_broken :
    (decodePO "test.po" c1Input).isOk = true ∧
    c1File.head.pluralForms = { n := 2, expression := "n != 1" } ∧
    c1Reencoded =
      "msgid \"\"\nmsgstr \"\"\n\"MIME-Version: 1.0\\n\"\n\"Content-Type: text/plain; charset=UTF-8\\n\"\n\"Content-Transfer-Encoding: 8bit\\n\"\n\"Plural-Forms: \x7b%!s(uint8=2) n != 1\x7d\\n\"\n\nmsgid \"hello\"\nmsgstr \"hallo\"\n" ∧
    (decodePO "test.po" c1Reencoded).errKindOf =
      some ErrKind.malformedHeaderPluralForms := by
  exact ⟨by decide, by decide, by decide, by decide⟩

/-- C2 counterexample: an input that repeats the plural index 0 (msgstr[0]
twice in a row) is rejected, but the expected-token description of the error
is msgid_plural, not msgstr[1] as the claim states for every repeated,
decreasing or skipped index. -/
theorem c2_counterexample_repeated_index_zero :
    (decodePO "test.po" c2Input).expectedOf = some "msgid_plural" ∧
    (decodePO "test.po" c2Input).expectedOf ≠ some "msgstr[1]" := by
  exact ⟨by decide, by decide⟩

/-- C4: the reference-comment rewrite is broken in the code. In the fixture
both existing reference comments (a.go:1 and b.go:2) are stale - neither is
reported by the extraction, which reports only c.go:3 - yet after
updateComments the comment b.go:2 is still present: the slices.Delete call
inside the range loop shifts the remaining elements under the running loop,
so the element after a deleted one is never examined. The translation slot
is untouched, as the claim says. -/
theorem c4_stale_reference_survives :
    indexOfPosFound c4Meta.pos "a.go:1" = false ∧
    indexOfPosFound c4Meta.pos "b.go:2" = false ∧
    ((updateComments c4Entry c4Meta).msgctxt.comments.text.map
      (fun c => (c.type, c.value))) =
      [(commentTypeReference, "b.go:2"), (commentTypeReference, "c.go:3")] ∧
    (updateComments c4Entry c4Meta).msgstr = c4Entry.msgstr := by
  exact ⟨by decide, by decide, by decide, by decide⟩

/-- C7 counterexample: decoding a file that ends immediately after
msgid_plural does return a syntax error, but its expected-token description
is msgstr, not msgstr[0] as the claim states (the decoder branch that would
name msgstr[0] is keyed on the pushback buffer, which never holds a
msgid_plural directive). -/
theorem c7_counterexample_eof_names_msgstr :
    (decodePO "test.po" c7PluralEOF).isOk = false ∧
    (decodePO "test.po" c7PluralEOF).expectedOf ≠ some "msgstr[0]" := by
  exact ⟨by decide, by decide⟩

/-- C7 amended: end of input right after msgid_plural is a syntax error
carrying io.ErrUnexpectedEOF whose expected-token description is msgstr;
end of input directly after msgstr or after an indexed msgstr is the valid
terminal state and decoding succeeds. -/
theorem c7_eof_handling :
    (decodePO "test.po" c7PluralEOF).expectedOf = some "msgstr" ∧
    (decodePO "test.po" c7PluralEOF).errKindOf = some ErrKind.unexpectedEOF ∧
    (decodePO "test.po" c7MsgstrEnd).isOk = true ∧
    (decodePO "test.po" c7IndexedEnd).isOk = true := by
  exact ⟨by decide, by decide, by decide, by decide⟩

/-- C8 counterexample: the Plural-Forms value nplurals=300; plural=x;
matches the written grammar (nplurals=digits; plural=expr;) yet decoding
fails: the implementation additionally requires the class count to fit a
uint8 (strconv.ParseUint with bitSize 8), so the match alone does not
determine acceptance as the claim states. -/
theorem c8_counterexample_uint8_overflow :
    specPluralFormsGrammar "nplurals=300; plural=x;" = true ∧
    parsePluralFormsHeader "nplurals=300; plural=x;" =
      Except.error ErrKind.malformedHeaderPluralForms ∧
    (decodePO "test.po" c8Overflow).errKindOf =
      some ErrKind.malformedHeaderPluralForms := by
  exact ⟨by decide, rfl, by decide⟩

/-- C2 amended: during one entry, after msgstr with index i the only
accepted indexed directive is msgstr with index i plus one. A repeated,
decreasing or skipped index between 1 and 5 is rejected with a syntax error
naming msgstr of i plus one when i is below 5 and naming msgctxt or msgid
when i is 5; a repeated or decreasing index equal to 0 is rejected with a
syntax error naming msgid_plural instead. -/
theorem c2_plural_index_monotonicity (m : Message) (dir : Directive) (i : Nat)
    (hty : dir.dirType = 5) (hi : i ≤ 5) :
    (dir.pluralFormIndex = 0 →
      stepDirective 5 i dir m = StepOut.errS "msgid_plural") ∧
    (1 ≤ dir.pluralFormIndex → dir.pluralFormIndex ≤ 5 →
      dir.pluralFormIndex ≠ i + 1 →
      stepDirective 5 i dir m =
        StepOut.errS
          (if i < 5 then "msgstr[" ++ toString (i + 1) ++ "]"
           else "msgctxt or msgid")) ∧
    (dir.pluralFormIndex = i + 1 → dir.pluralFormIndex ≤ 5 →
      stepDirective 5 i dir m =
        StepOut.stored (setIndexedSlot m dir.pluralFormIndex
          { span := dir.span, comments := dir.comments, text := dir.text })) := by
  obtain ⟨sp, cm, tx, ty, idx⟩ := dir
  have hty' : ty = 5 := hty
  subst hty'
  refine ⟨?_, ?_, ?_⟩
  · intro h0
    have h0' : idx = 0 := h0
    subst h0'
    rfl
  · intro h1 h5 hne
    have h1' : 1 ≤ idx := h1
    have h5' : idx ≤ 5 := h5
    have hne' : idx ≠ i + 1 := hne
    interval_cases i <;> interval_cases idx <;> first | omega | rfl
  · intro heq h5
    have heq' : idx = i + 1 := heq
    subst heq'
    have h5' : i + 1 ≤ 5 := h5
    interval_cases i <;> first | omega | rfl

/-- C2 witness: msgstr with index 1 repeated directly after msgstr with
index 1 is rejected naming msgstr of index 2. -/
theorem c2_plural_index_monotonicity_witness :
    stepDirective 5 1
      { span := default, comments := default, text := default,
        dirType := 5, pluralFormIndex := 1 } default =
      StepOut.errS "msgstr[2]" :=
  (c2_plural_index_monotonicity default
    { span := default, comments := default, text := default,
      dirType := 5, pluralFormIndex := 1 } 1 rfl (by decide)).2.1
    (by decide) (by decide) (by decide)

/-- C3: a msgctxt or msgid directive after a completed msgstr or indexed
msgstr does not fail: the state machine ends the message (first conjunct),
the read loop returns the accumulated message successfully with the
directive buffered as pending, one-token pushback (second conjunct), and on
a concrete input whose second entry starts right after the first entry's
msgstr both entries appear in the decoded file in order (last conjuncts). -/
theorem c3_pushback_entry_boundary :
    (∀ (m : Message) (dir : Directive) (prev pi : Nat),
      (prev = 4 ∨ prev = 5) → (dir.dirType = 1 ∨ dir.dirType = 2) →
      stepDirective prev pi dir m = StepOut.endMsg) ∧
    (∀ (fuel : Nat) (m : Message) (prev pi : Nat) (st st2 : DecSt)
        (dir : Directive),
      m.obsolete = false → (prev = 4 ∨ prev = 5) →
      st.pending.dirType = 0 →
      readDirective fuel false
        { st with rem := (skipWs st.rem st.pos).1,
                  pos := (skipWs st.rem st.pos).2.1 } = Except.ok (dir, st2) →
      (dir.dirType = 1 ∨ dir.dirType = 2) →
      readMessageLoop (fuel + 1) m prev pi st =
        LoopOut.early m { st2 with pending := dir }) ∧
    (decodePO "test.po" c3Input).isOk = true ∧
    (decodePO "test.po" c3Input).msgsOf.map (fun mm => mm.msgid.text.str) =
      ["a", "c"] ∧
    (decodePO "test.po" c3Input).msgsOf.map (fun mm => mm.msgstr.text.str) =
      ["b", "d"] := by
  have hstep : ∀ (m : Message) (dir : Directive) (prev pi : Nat),
      (prev = 4 ∨ prev = 5) → (dir.dirType = 1 ∨ dir.dirType = 2) →
      stepDirective prev pi dir m = StepOut.endMsg := by
    intro m dir prev pi hprev hty
    obtain ⟨sp, cm, tx, ty, idx⟩ := dir
    have hty' : ty = 1 ∨ ty = 2 := hty
    rcases hprev with h | h <;> subst h <;> rcases hty' with h2 | h2 <;>
      subst h2 <;> rfl
  refine ⟨hstep, ?_, by decide, by decide, by decide⟩
  intro fuel m prev pi st st2 dir hobs hprev hpend hdir hty
  have hty0 : ¬ dir.dirType = 0 := by rcases hty with h | h <;> omega
  simp only [readMessageLoop, hobs, false_and, if_false, hpend, if_pos, hdir,
    hty0, if_true]
  rw [hstep m dir prev pi hprev hty]
  simp

/-- C3 witness: a msgctxt directive directly after msgstr ends the message
via the pushback path. -/
theorem c3_pushback_entry_boundary_witness :
    stepDirective 4 0
      { span := default, comments := default, text := default,
        dirType := 1, pluralFormIndex := 0 } default = StepOut.endMsg :=
  c3_pushback_entry_boundary.1 default
    { span := default, comments := default, text := default,
      dirType := 1, pluralFormIndex := 0 } 4 0 (Or.inl rfl) (Or.inl rfl)

/-- C8 amended: the Plural-Forms value is searched (anywhere in the value,
unanchored) for the pattern nplurals equals digits semicolon plural equals
expression semicolon, with optional whitespace around the separators; a
match with a class count up to 255 is stored as the pair in the file head,
while no match, or a matched count above 255, fails decoding with the
malformed-Plural-Forms error. -/
theorem c8_plural_forms_header :
    (∀ s : String, pluralFormsFind s.data = none →
      parsePluralFormsHeader s =
        Except.error ErrKind.malformedHeaderPluralForms) ∧
    (∀ (s : String) (ds ex : List Char),
      pluralFormsFind s.data = some (ds, ex) → natOfDigits ds ≤ 255 →
      parsePluralFormsHeader s = Except.ok (natOfDigits ds, String.mk ex)) ∧
    (∀ (s : String) (ds ex : List Char),
      pluralFormsFind s.data = some (ds, ex) → 255 < natOfDigits ds →
      parsePluralFormsHeader s =
        Except.error ErrKind.malformedHeaderPluralForms) ∧
    (decodePO "test.po" c8Good).fileOf.head.pluralForms =
      { n := 2, expression := "n != 1" } ∧
    (decodePO "test.po" c8NoMatch).errKindOf =
      some ErrKind.malformedHeaderPluralForms := by
  refine ⟨?_, ?_, ?_, by decide, by decide⟩
  · intro s h
    simp [parsePluralFormsHeader, h]
  · intro s ds ex h hle
    simp only [parsePluralFormsHeader, h]
    rw [if_neg (by omega)]
  · intro s ds ex h hgt
    simp only [parsePluralFormsHeader, h]
    rw [if_pos (by omega)]

/-- C8 witness: a value matching the grammar nowhere is rejected with the
malformed-Plural-Forms error. -/
theorem c8_plural_forms_header_witness :
    parsePluralFormsHeader "two forms" =
      Except.error ErrKind.malformedHeaderPluralForms :=
  c8_plural_forms_header.1 "two forms" (by decide)

/-! ### Helper lemmas shared by the remaining claim theorems -/

/-- getD through map at an in-range index. -/
theorem getD_map_of_lt {α : Type} (g : α → α) (l : List α) (i : Nat) (d : α)
    (h : i < l.length) : (l.map g).getD i d = g (l.getD i d) := by
  induction l generalizing i with
  | nil => simp at h
  | cons x xs ih =>
    cases i with
    | zero => rfl
    | succ n => simpa using ih n (by simpa using h)

/-- getD is unchanged by set at a different index. -/
theorem getD_set_of_ne {l : List Message} {j i : Nat} (x d : Message)
    (h : j ≠ i) : (l.set j x).getD i d = l.getD i d := by
  induction l generalizing i j with
  | nil => simp [List.set]
  | cons y ys ih =>
    cases j with
    | zero =>
      cases i with
      | zero => omega
      | succ n => simp [List.set]
    | succ jm =>
      cases i with
      | zero => simp [List.set]
      | succ n => simpa [List.set] using ih (fun he => h (by omega))

/-- getD through set at an in-range index. -/
theorem getD_set_of_eq {l : List Message} {i : Nat} (x d : Message)
    (h : i < l.length) : (l.set i x).getD i d = x := by
  induction l generalizing i with
  | nil => simp at h
  | cons y ys ih =>
    cases i with
    | zero => rfl
    | succ n => simpa [List.set] using ih (by simpa using h)

/-- getD of an append, inside the first list. -/
theorem getD_append_of_lt {l l2 : List Message} {i : Nat} (d : Message)
    (h : i < l.length) : (l ++ l2).getD i d = l.getD i d := by
  induction l generalizing i with
  | nil => simp at h
  | cons y ys ih =>
    cases i with
    | zero => rfl
    | succ n => simpa using ih (by simpa using h)

/-- resetMsgstr realizes the blanking relation. -/
theorem blankedFrom_resetMsgstr (s : MsgSlot) : blankedFrom s (resetMsgstr s) := by
  unfold blankedFrom resetMsgstr
  by_cases h : s.text.lines = [] <;> simp [h]
  all_goals rfl

/-- C6 counterexample: MakePOT does not drop obsolete entries from the
result's message list: on a file with one obsolete entry the result still
contains it, at its original index, with its translation text intact and
not even blanked. -/
theorem c6_counterexample_obsolete_kept :
    ((makePOT c6File).file.messages.filter (fun m => m.obsolete)).length = 1 ∧
    ((makePOT c6File).file.messages.getD 0 default).obsolete = true ∧
    ((makePOT c6File).file.messages.getD 0 default).msgstr.text.str = "Weg" := by
  exact ⟨by decide, by decide, by decide⟩

/-- C6 amended: MakePOT is pure (a deep clone is transformed) and clears
Language, Last-Translator, PO-Revision-Date and Language-Team; every
non-obsolete entry keeps its identity fields and has each populated
translation slot replaced by a present-but-empty slot and each empty slot
left empty; entries flagged obsolete stay in the result's message list
completely unchanged - they are omitted later, by the POT encoder, whose
message loop contributes nothing for an obsolete message in template mode. -/
theorem c6_makepot_characterization (f : FilePO) :
    (makePOT f).file.head.language = { value := "", locale := "" } ∧
    (makePOT f).file.head.lastTranslator = "" ∧
    (makePOT f).file.head.poRevisionDate = "" ∧
    (makePOT f).file.head.languageTeam = "" ∧
    (makePOT f).file.head.projectIdVersion = f.file.head.projectIdVersion ∧
    (makePOT f).file.head.pluralForms = f.file.head.pluralForms ∧
    (makePOT f).file.messages.length = f.file.messages.length ∧
    (∀ i, i < f.file.messages.length →
      ((f.file.messages.getD i default).obsolete = true →
        (makePOT f).file.messages.getD i default =
          f.file.messages.getD i default) ∧
      ((f.file.messages.getD i default).obsolete = false →
        (makePOT f).file.messages.getD i default =
          resetAllMsgstr (f.file.messages.getD i default))) ∧
    (∀ m : Message,
      (resetAllMsgstr m).obsolete = m.obsolete ∧
      (resetAllMsgstr m).msgctxt = m.msgctxt ∧
      (resetAllMsgstr m).msgid = m.msgid ∧
      (resetAllMsgstr m).msgidPlural = m.msgidPlural ∧
      blankedFrom m.msgstr (resetAllMsgstr m).msgstr ∧
      blankedFrom m.msgstr0 (resetAllMsgstr m).msgstr0 ∧
      blankedFrom m.msgstr1 (resetAllMsgstr m).msgstr1 ∧
      blankedFrom m.msgstr2 (resetAllMsgstr m).msgstr2 ∧
      blankedFrom m.msgstr3 (resetAllMsgstr m).msgstr3 ∧
      blankedFrom m.msgstr4 (resetAllMsgstr m).msgstr4 ∧
      blankedFrom m.msgstr5 (resetAllMsgstr m).msgstr5) ∧
    (∀ (total i : Nat) (m : Message) (rest : List Message),
      m.obsolete = true →
      encodeMessagesLoop true total i (m :: rest) =
        encodeMessagesLoop true total (i + 1) rest) := by
  refine ⟨rfl, rfl, rfl, rfl, rfl, rfl, by simp [makePOT], ?_, ?_, ?_⟩
  · intro i hi
    constructor
    · intro hobs
      show (f.file.messages.map _).getD i default = _
      rw [getD_map_of_lt _ _ _ _ hi, hobs]
      simp
    · intro hobs
      show (f.file.messages.map _).getD i default = _
      rw [getD_map_of_lt _ _ _ _ hi, hobs]
      simp
  · intro m
    exact ⟨rfl, rfl, rfl, rfl,
      blankedFrom_resetMsgstr m.msgstr, blankedFrom_resetMsgstr m.msgstr0,
      blankedFrom_resetMsgstr m.msgstr1, blankedFrom_resetMsgstr m.msgstr2,
      blankedFrom_resetMsgstr m.msgstr3, blankedFrom_resetMsgstr m.msgstr4,
      blankedFrom_resetMsgstr m.msgstr5⟩
  · intro total i m rest hobs
    simp [encodeMessagesLoop, hobs]

/-- C6 witness: on the concrete file the obsolete first entry survives
MakePOT unchanged. -/
theorem c6_makepot_characterization_witness :
    (makePOT c6File).file.messages.getD 0 default =
      c6File.file.messages.getD 0 default :=
  ((c6_makepot_characterization c6File).2.2.2.2.2.2.2.1 0 (by decide)).1
    (by decide)

/-- phase1mark keeps the msgctxt slot. -/
theorem phase1mark_msgctxt (hashes : List String) (m : Message) :
    (phase1mark hashes m).msgctxt = m.msgctxt := by
  unfold phase1mark
  by_cases h1 : hashes.contains m.msgctxt.text.str = true
  · rw [if_pos h1]
  · rw [if_neg h1]
    by_cases h2 : m.obsolete = true
    · rw [if_pos h2]
    · rw [if_neg h2]

/-- phase1mark keeps an obsolete flag that is already set. -/
theorem phase1mark_obsolete_true (hashes : List String) (m : Message)
    (h : m.obsolete = true) : (phase1mark hashes m).obsolete = true := by
  unfold phase1mark
  by_cases h1 : hashes.contains m.msgctxt.text.str = true
  · rw [if_pos h1]; exact h
  · rw [if_neg h1, if_pos h]; exact h

/-- phase1mark on an absent, non-obsolete entry: only the flag is set. -/
theorem phase1mark_marks (hashes : List String) (m : Message)
    (habs : hashes.contains m.msgctxt.text.str = false)
    (hobs : m.obsolete = false) :
    phase1mark hashes m = { m with obsolete := true } := by
  unfold phase1mark
  rw [if_neg (fun hc => Bool.false_ne_true (habs ▸ hc)),
    if_neg (fun hc => Bool.false_ne_true (hobs ▸ hc))]

/-- phase1mark on an absent, already-obsolete entry: untouched. -/
theorem phase1mark_skips (hashes : List String) (m : Message)
    (habs : hashes.contains m.msgctxt.text.str = false)
    (hobs : m.obsolete = true) : phase1mark hashes m = m := by
  unfold phase1mark
  rw [if_neg (fun hc => Bool.false_ne_true (habs ▸ hc)), if_pos hobs]

/-- The message-list component of phase 1 is the pointwise marking. -/
theorem phase1_fst (hashes : List String) :
    ∀ (msgs : List Message) (k : Nat),
      (phase1 hashes msgs k).1 = msgs.map (phase1mark hashes) := by
  intro msgs
  induction msgs with
  | nil => intro k; rfl
  | cons m rest ih =>
    intro k
    by_cases h1 : hashes.contains m.msgctxt.text.str = true
    · simp only [phase1, phase1mark, if_pos h1, List.map]
      exact congrArg _ (ih (k + 1))
    · by_cases h2 : m.obsolete = true
      · simp only [phase1, phase1mark, if_neg h1, if_pos h2, List.map]
        exact congrArg _ (ih (k + 1))
      · simp only [phase1, phase1mark, if_neg h1, if_neg h2, List.map]
        exact congrArg _ (ih (k + 1))

/-- The log component of phase 1: every logged hash comes from an entry
whose hash is absent from the extraction and that was not yet obsolete, so
already-obsolete entries are never re-logged. -/
theorem phase1_log (hashes : List String) :
    ∀ (msgs : List Message) (k : Nat),
      ∀ s ∈ (phase1 hashes msgs k).2.2,
        ∃ m ∈ msgs, m.msgctxt.text.str = s ∧
          hashes.contains s = false ∧ m.obsolete = false := by
  intro msgs
  induction msgs with
  | nil => intro k s hs; simp [phase1] at hs
  | cons m rest ih =>
    intro k s hs
    by_cases h1 : hashes.contains m.msgctxt.text.str = true
    · rw [show (phase1 hashes (m :: rest) k).2.2 =
          (phase1 hashes rest (k + 1)).2.2 by
        simp only [phase1]; rw [if_pos h1]] at hs
      obtain ⟨x, hx, he, hc, ho⟩ := ih (k + 1) s hs
      exact ⟨x, List.mem_cons_of_mem _ hx, he, hc, ho⟩
    · by_cases h2 : m.obsolete = true
      · rw [show (phase1 hashes (m :: rest) k).2.2 =
            (phase1 hashes rest (k + 1)).2.2 by
          simp only [phase1]; rw [if_neg h1, if_pos h2]] at hs
        obtain ⟨x, hx, he, hc, ho⟩ := ih (k + 1) s hs
        exact ⟨x, List.mem_cons_of_mem _ hx, he, hc, ho⟩
      · rw [show (phase1 hashes (m :: rest) k).2.2 =
            m.msgctxt.text.str :: (phase1 hashes rest (k + 1)).2.2 by
          simp only [phase1]; rw [if_neg h1, if_neg h2]] at hs
        cases hs with
        | head =>
          exact ⟨m, List.mem_cons_self _ _, rfl, by simpa using h1,
            by simpa using h2⟩
        | tail _ hs =>
          obtain ⟨x, hx, he, hc, ho⟩ := ih (k + 1) s hs
          exact ⟨x, List.mem_cons_of_mem _ hx, he, hc, ho⟩

/-- Every index stored in the phase-1 catalog map points at the entry whose
msgctxt text is the key. -/
theorem phase1_cat_lookup (hashes : List String) :
    ∀ (msgs : List Message) (k : Nat) (key : String) (j : Nat),
      catLookup (phase1 hashes msgs k).2.1 key = some j →
      k ≤ j ∧ j - k < msgs.length ∧
      key = (msgs.getD (j - k) default).msgctxt.text.str := by
  intro msgs
  induction msgs with
  | nil => intro k key j h; simp [phase1, catLookup] at h
  | cons m rest ih =>
    intro k key j h
    have hstep : ∀ (hrec : catLookup (phase1 hashes rest (k + 1)).2.1 key = some j),
        k ≤ j ∧ j - k < (m :: rest).length ∧
        key = ((m :: rest).getD (j - k) default).msgctxt.text.str := by
      intro hrec
      obtain ⟨hk, hlen, hkey⟩ := ih (k + 1) key j hrec
      refine ⟨by omega, by simp only [List.length_cons]; omega, ?_⟩
      rw [show j - k = (j - (k + 1)) + 1 by omega]
      simpa using hkey
    have hhead : ∀ (hrec : catLookup (phase1 hashes rest (k + 1)).2.1 key = none)
        (hin : (phase1 hashes (m :: rest) k).2.1 =
          (m.msgctxt.text.str, k) :: (phase1 hashes rest (k + 1)).2.1),
        k ≤ j ∧ j - k < (m :: rest).length ∧
        key = ((m :: rest).getD (j - k) default).msgctxt.text.str := by
      intro hrec hin
      rw [hin] at h
      simp only [catLookup, hrec] at h
      by_cases he : m.msgctxt.text.str = key
      · rw [if_pos he] at h
        obtain rfl : k = j := by simpa using h
        simp [he]
      · rw [if_neg he] at h
        simp at h
    by_cases h1 : hashes.contains m.msgctxt.text.str = true
    · have hin : (phase1 hashes (m :: rest) k).2.1 =
          (m.msgctxt.text.str, k) :: (phase1 hashes rest (k + 1)).2.1 := by
        simp only [phase1]; rw [if_pos h1]
      rw [hin] at h
      cases hrec : catLookup (phase1 hashes rest (k + 1)).2.1 key with
      | some r =>
        have : r = j := by simpa [catLookup, hrec] using h
        subst this
        exact hstep hrec
      | none => exact hhead hrec hin
    · by_cases h2 : m.obsolete = true
      · have hin : (phase1 hashes (m :: rest) k).2.1 =
            (phase1 hashes rest (k + 1)).2.1 := by
          simp only [phase1]; rw [if_neg h1, if_pos h2]
        rw [hin] at h
        exact hstep h
      · have hin : (phase1 hashes (m :: rest) k).2.1 =
            (m.msgctxt.text.str, k) :: (phase1 hashes rest (k + 1)).2.1 := by
          simp only [phase1]; rw [if_neg h1, if_neg h2]
        rw [hin] at h
        cases hrec : catLookup (phase1 hashes rest (k + 1)).2.1 key with
        | some r =>
          have : r = j := by simpa [catLookup, hrec] using h
          subst this
          exact hstep hrec
        | none => exact hhead hrec hin

/-- updateComments never touches the obsolete flag. -/
theorem updateComments_obsolete (m : Message) (meta : MsgMetaC) :
    (updateComments m meta).obsolete = m.obsolete := rfl

/-- updateComments never touches the msgctxt text. -/
theorem updateComments_msgctxt_text (m : Message) (meta : MsgMetaC) :
    (updateComments m meta).msgctxt.text = m.msgctxt.text := rfl

/-- Phase 2 leaves every list index alone that no extracted hash resolves
to in the catalog map. -/
theorem phase2_getD_untouched (pf : PluralFormsC) (cat : List (String × Nat))
    (i : Nat) :
    ∀ (coll : List (MsgC × MsgMetaC)) (msgs : List Message) (lg : List String),
      i < msgs.length →
      (∀ mm ∈ coll, catLookup cat mm.1.hash ≠ some i) →
      (phase2 cat pf coll msgs lg).1.getD i default = msgs.getD i default := by
  intro coll
  induction coll with
  | nil => intro msgs lg hi hno; rfl
  | cons mm rest ih =>
    intro msgs lg hi hno
    simp only [phase2]
    cases hc : catLookup cat mm.1.hash with
    | none =>
      rw [ih _ _ (by rw [List.length_append]; omega)
        (fun x hx => hno x (List.mem_cons_of_mem _ hx))]
      exact getD_append_of_lt default hi
    | some j =>
      have hji : j ≠ i := by
        intro he
        exact hno mm (List.mem_cons_self _ _) (by rw [hc, he])
      rw [ih _ _ (by rw [List.length_set]; exact hi)
        (fun x hx => hno x (List.mem_cons_of_mem _ hx))]
      exact getD_set_of_ne _ _ hji

/-- Phase 2 never changes the obsolete flag of an existing entry. -/
theorem phase2_getD_obsolete (pf : PluralFormsC) (cat : List (String × Nat))
    (i : Nat) :
    ∀ (coll : List (MsgC × MsgMetaC)) (msgs : List Message) (lg : List String),
      i < msgs.length →
      ((phase2 cat pf coll msgs lg).1.getD i default).obsolete =
        (msgs.getD i default).obsolete := by
  intro coll
  induction coll with
  | nil => intro msgs lg hi; rfl
  | cons mm rest ih =>
    intro msgs lg hi
    simp only [phase2]
    cases hc : catLookup cat mm.1.hash with
    | none =>
      rw [ih _ _ (by rw [List.length_append]; omega)]
      rw [getD_append_of_lt default hi]
    | some j =>
      rw [ih _ _ (by rw [List.length_set]; exact hi)]
      by_cases hji : j = i
      · subst hji
        rw [getD_set_of_eq _ _ (by omega)]
        rw [updateComments_obsolete]
      · rw [getD_set_of_ne _ _ hji]

/-- Every entry leaving phase 1 is obsolete or has an extracted hash. -/
theorem phase1_all_retained (hashes : List String) :
    ∀ (msgs : List Message) (k : Nat),
      ∀ m ∈ (phase1 hashes msgs k).1, entryRetained hashes m := by
  intro msgs
  induction msgs with
  | nil => intro k m hm; simp [phase1] at hm
  | cons x rest ih =>
    intro k m hm
    by_cases h1 : hashes.contains x.msgctxt.text.str = true
    · rw [show (phase1 hashes (x :: rest) k).1 =
          x :: (phase1 hashes rest (k + 1)).1 by
        simp only [phase1]; rw [if_pos h1]] at hm
      cases hm with
      | head => exact Or.inr h1
      | tail _ hm => exact ih (k + 1) m hm
    · by_cases h2 : x.obsolete = true
      · rw [show (phase1 hashes (x :: rest) k).1 =
            x :: (phase1 hashes rest (k + 1)).1 by
          simp only [phase1]; rw [if_neg h1, if_pos h2]] at hm
        cases hm with
        | head => exact Or.inl h2
        | tail _ hm => exact ih (k + 1) m hm
      · rw [show (phase1 hashes (x :: rest) k).1 =
            { x with obsolete := true } :: (phase1 hashes rest (k + 1)).1 by
          simp only [phase1]; rw [if_neg h1, if_neg h2]] at hm
        cases hm with
        | head => exact Or.inl rfl
        | tail _ hm => exact ih (k + 1) m hm

/-- updateComments preserves the retained-entry property. -/
theorem updateComments_retained (hashes : List String) (m : Message)
    (meta : MsgMetaC) (h : entryRetained hashes m) :
    entryRetained hashes (updateComments m meta) := by
  cases h with
  | inl h => exact Or.inl (by rw [updateComments_obsolete]; exact h)
  | inr h =>
    refine Or.inr ?_
    rw [show (updateComments m meta).msgctxt.text.str = m.msgctxt.text.str from
      congrArg StringLiterals.str (updateComments_msgctxt_text m meta)]
    exact h

/-- addTextAt never touches msgctxt. -/
theorem addTextAt_msgctxt (i : Nat) (v : String) (m : Message) :
    (addTextAt i v m).msgctxt = m.msgctxt := by
  rcases i with _ | _ | _ | _ | _ | _ | i <;> rfl

/-- addCardinalForms never touches msgctxt. -/
theorem addCardinalForms_msgctxt (msg : MsgC) :
    ∀ (fs : List Nat) (i : Nat) (m : Message),
      (addCardinalForms msg i fs m).msgctxt = m.msgctxt := by
  intro fs
  induction fs with
  | nil => intro i m; rfl
  | cons f rest ih =>
    intro i m
    simp only [addCardinalForms]
    rw [ih]
    split_ifs <;> first | rfl | rw [addTextAt_msgctxt]

/-- A synthesized and blanked new catalog entry carries its extraction hash
as its msgctxt text. -/
theorem blankNew_hash (pf : PluralFormsC) (mm : MsgC) (meta : MsgMetaC) :
    (blankNewMsg (msgFromGettextMessage pf mm meta)).msgctxt.text.str =
      mm.hash := by
  show (msgFromGettextMessage pf mm meta).msgctxt.text.str = mm.hash
  unfold msgFromGettextMessage
  split_ifs <;> (try rw [addCardinalForms_msgctxt]) <;> rfl

/-- Phase 2 preserves the retained-entry property of the whole list when
every extracted hash is in the hash set. -/
theorem phase2_all_retained (hashes : List String) (pf : PluralFormsC)
    (cat : List (String × Nat)) :
    ∀ (coll : List (MsgC × MsgMetaC)) (msgs : List Message) (lg : List String),
      (∀ mm ∈ coll, hashes.contains mm.1.hash = true) →
      (∀ m ∈ msgs, entryRetained hashes m) →
      ∀ m ∈ (phase2 cat pf coll msgs lg).1, entryRetained hashes m := by
  intro coll
  induction coll with
  | nil => intro msgs lg hcoll hmsgs m hm; exact hmsgs m hm
  | cons mm rest ih =>
    intro msgs lg hcoll hmsgs m hm
    have hcoll' : ∀ x ∈ rest, hashes.contains x.1.hash = true :=
      fun x hx => hcoll x (List.mem_cons_of_mem _ hx)
    simp only [phase2] at hm
    cases hc : catLookup cat mm.1.hash with
    | none =>
      rw [hc] at hm
      refine ih _ _ hcoll' ?_ m hm
      intro x hx
      rcases List.mem_append.mp hx with hx | hx
      · exact hmsgs x hx
      · have hx' : x = blankNewMsg (msgFromGettextMessage pf mm.1 mm.2) := by
          simpa using hx
        subst hx'
        refine Or.inr ?_
        rw [blankNew_hash]
        exact hcoll mm (List.mem_cons_self _ _)
    | some j =>
      rw [hc] at hm
      refine ih _ _ hcoll' ?_ m hm
      intro x hx
      by_cases hj : j < msgs.length
      · rcases List.mem_or_eq_of_mem_set hx with hx | hx
        · exact hmsgs x hx
        · subst hx
          refine updateComments_retained hashes _ _ ?_
          refine hmsgs _ ?_
          rw [List.getD_eq_getElem _ _ hj]
          exact List.getElem_mem _
      · rw [List.set_eq_of_length_le (by omega)] at hx
        exact hmsgs x hx

/-- On a list of retained entries, phase 1 changes nothing and logs
nothing. -/
theorem phase1_fixpoint (hashes : List String) :
    ∀ (msgs : List Message) (k : Nat),
      (∀ m ∈ msgs, entryRetained hashes m) →
      (phase1 hashes msgs k).1 = msgs ∧ (phase1 hashes msgs k).2.2 = [] := by
  intro msgs
  induction msgs with
  | nil => intro k h; exact ⟨rfl, rfl⟩
  | cons x rest ih =>
    intro k h
    have hx := h x (List.mem_cons_self _ _)
    have hrest := ih (k + 1) (fun m hm => h m (List.mem_cons_of_mem _ hm))
    by_cases h1 : hashes.contains x.msgctxt.text.str = true
    · constructor
      · rw [show (phase1 hashes (x :: rest) k).1 =
            x :: (phase1 hashes rest (k + 1)).1 by
          simp only [phase1]; rw [if_pos h1]]
        rw [hrest.1]
      · rw [show (phase1 hashes (x :: rest) k).2.2 =
            (phase1 hashes rest (k + 1)).2.2 by
          simp only [phase1]; rw [if_pos h1]]
        exact hrest.2
    · have h2 : x.obsolete = true := by
        cases hx with
        | inl h => exact h
        | inr h => exact absurd h h1
      constructor
      · rw [show (phase1 hashes (x :: rest) k).1 =
            x :: (phase1 hashes rest (k + 1)).1 by
          simp only [phase1]; rw [if_neg h1, if_pos h2]]
        rw [hrest.1]
      · rw [show (phase1 hashes (x :: rest) k).2.2 =
            (phase1 hashes rest (k + 1)).2.2 by
          simp only [phase1]; rw [if_neg h1, if_pos h2]]
        exact hrest.2

/-- C5: for every synchronization run, an existing entry whose hash is
absent from the extracted set is marked obsolete when it was not obsolete,
with every other field (including all translation slots) untouched, and is
left completely untouched when it was already obsolete; the obsolete log
only ever names absent entries that were not yet obsolete (already-obsolete
entries are not re-logged); and the marking pass is idempotent: run on the
output of a full synchronization with the same extraction set, phase 1
changes no message and logs nothing. -/
theorem c5_obsolete_marking (coll : List (MsgC × MsgMetaC)) (pf : PluralFormsC)
    (msgs : List Message) :
    (∀ i, i < msgs.length →
      (coll.map (fun p => p.1.hash)).contains
        (msgs.getD i default).msgctxt.text.str = false →
      (((msgs.getD i default).obsolete = false →
        (updateCatalogMessages coll pf msgs).1.getD i default =
          { msgs.getD i default with obsolete := true }) ∧
       ((msgs.getD i default).obsolete = true →
        (updateCatalogMessages coll pf msgs).1.getD i default =
          msgs.getD i default))) ∧
    (∀ s ∈ (phase1 (coll.map (fun p => p.1.hash)) msgs 0).2.2,
      ∃ m ∈ msgs, m.msgctxt.text.str = s ∧
        (coll.map (fun p => p.1.hash)).contains s = false ∧
        m.obsolete = false) ∧
    ((phase1 (coll.map (fun p => p.1.hash))
        (updateCatalogMessages coll pf msgs).1 0).1 =
      (updateCatalogMessages coll pf msgs).1 ∧
     (phase1 (coll.map (fun p => p.1.hash))
        (updateCatalogMessages coll pf msgs).1 0).2.2 = []) := by
  have hcoll : ∀ mm ∈ coll,
      (coll.map (fun p => p.1.hash)).contains mm.1.hash = true := by
    intro mm hmm
    simpa using List.mem_map_of_mem (fun p => p.1.hash) hmm
  have hlen1 : (phase1 (coll.map (fun p => p.1.hash)) msgs 0).1.length =
      msgs.length := by
    rw [phase1_fst]; exact List.length_map _ _
  refine ⟨?_, phase1_log _ msgs 0, ?_⟩
  · intro i hi hcon
    have hms1 : (phase1 (coll.map (fun p => p.1.hash)) msgs 0).1.getD i default =
        phase1mark (coll.map (fun p => p.1.hash)) (msgs.getD i default) := by
      rw [phase1_fst]; exact getD_map_of_lt _ _ _ _ hi
    have huntouched : ∀ mm ∈ coll,
        catLookup (phase1 (coll.map (fun p => p.1.hash)) msgs 0).2.1 mm.1.hash ≠
          some i := by
      intro mm hmm heq
      obtain ⟨-, -, hkey⟩ :=
        phase1_cat_lookup (coll.map (fun p => p.1.hash)) msgs 0 mm.1.hash i heq
      rw [Nat.sub_zero] at hkey
      have hmem := hcoll mm hmm
      rw [hkey] at hmem
      rw [hcon] at hmem
      exact Bool.false_ne_true hmem
    have hfin : (updateCatalogMessages coll pf msgs).1.getD i default =
        (phase1 (coll.map (fun p => p.1.hash)) msgs 0).1.getD i default := by
      simp only [updateCatalogMessages]
      exact phase2_getD_untouched pf _ i coll _ []
        (by rw [hlen1]; exact hi) huntouched
    constructor
    · intro hobs
      rw [hfin, hms1]
      exact phase1mark_marks _ _ hcon hobs
    · intro hobs
      rw [hfin, hms1]
      exact phase1mark_skips _ _ hcon hobs
  · have hall1 := phase1_all_retained (coll.map (fun p => p.1.hash)) msgs 0
    have hall2 : ∀ m ∈ (updateCatalogMessages coll pf msgs).1,
        entryRetained (coll.map (fun p => p.1.hash)) m := by
      simp only [updateCatalogMessages]
      exact phase2_all_retained _ pf _ coll _ [] hcoll hall1
    exact phase1_fixpoint _ _ 0 hall2

/-- C5 witness: in the concrete catalog, entry 1 (hash old, translated Alt)
is absent from the extraction and gets exactly its obsolete flag set. -/
theorem c5_obsolete_marking_witness :
    (updateCatalogMessages collFixture pfFixture catFixture).1.getD 1 default =
      { catFixture.getD 1 default with obsolete := true } :=
  ((c5_obsolete_marking collFixture pfFixture catFixture).1 1 (by decide)
    (by decide)).1 (by decide)

/-- C10: synchronization never clears the obsolete flag: every entry that is
obsolete before a run is still obsolete after it, whether or not its hash is
extracted again - phase 1 only ever sets the flag and phase 2 only rewrites
comments of registered entries and appends new ones. -/
theorem c10_obsolete_never_cleared (coll : List (MsgC × MsgMetaC))
    (pf : PluralFormsC) (msgs : List Message) :
    ∀ i, i < msgs.length → (msgs.getD i default).obsolete = true →
      ((updateCatalogMessages coll pf msgs).1.getD i default).obsolete =
        true := by
  intro i hi hobs
  have hlen1 : (phase1 (coll.map (fun p => p.1.hash)) msgs 0).1.length =
      msgs.length := by
    rw [phase1_fst]; exact List.length_map _ _
  simp only [updateCatalogMessages]
  rw [phase2_getD_obsolete _ _ _ _ _ _ (by rw [hlen1]; exact hi)]
  rw [phase1_fst, getD_map_of_lt _ _ _ _ hi]
  exact phase1mark_obsolete_true _ _ hobs

/-- C10 witness: the already-obsolete entry 2 (hash gone) stays obsolete
after the concrete run. -/
theorem c10_obsolete_never_cleared_witness :
    ((updateCatalogMessages collFixture pfFixture catFixture).1.getD 2
      default).obsolete = true :=
  c10_obsolete_never_cleared collFixture pfFixture catFixture 2 (by decide)
    (by decide)

/-- C9: decode does not always complete or return a terminal error value:
on an input containing msgstr[6] after msgstr[0] - the digit 6 passes the
plural-index reader - the message state machine reaches the unsupported-
plural-form-index panic instead of rejecting the input with an error, so the
claim is right about the intended behavior and the code crashes. -/
theorem c9_decode_panics :
    decodePO "test.po" c9Input =
      DecodeResult.panicked "unsupported plural form index: 6" := by decide

end Localize
